import Mathlib

/-!
Verification development for the order-processing pipeline repository.

The repository ships the test suites of five pedagogical stages and the
example runner of the linear stage; the implementation headers
(order.hpp, queue.hpp, metrics.hpp, pipeline.hpp) are not part of the
source tree.  The data model and the operations below are therefore a
shallow embedding modelled from the specification (spec.md), with the
example runner additionally following src/stages/stage_00_linear/solution/
src/main.cpp, which is present.

Conventions of the embedding:
- the monotonic clock is a natural number of nanoseconds; each pipeline
  state carries the current reading and steps may advance it;
- blocking calls are modelled by their completed outcomes: a push that
  would block past its timeout is the failing outcome, a pop on an empty
  queue is the failing outcome;
- worker-pool concurrency is modelled by interleaving atomic stage steps
  (one pop + advance + emit per step), which is the granularity at which
  the specification states its counter and snapshot invariants;
- exceptions are modelled with Except, boolean outcomes with Bool.
-/

/-- Modelled from the spec (section 3.1): the ordered set of order states
Accepted, Prepared, Packed, Delivered. -/
inductive OrderStatus where
  | Accepted
  | Prepared
  | Packed
  | Delivered
deriving DecidableEq, Repr

/-- The immediate successor in the order state machine, if any
(spec section 4.2: Accepted to Prepared to Packed to Delivered). -/
def OrderStatus.next? : OrderStatus → Option OrderStatus
  | .Accepted => some .Prepared
  | .Prepared => some .Packed
  | .Packed => some .Delivered
  | .Delivered => none

/-- Modelled from the spec (section 3.1): an order has a 64-bit id, a
status, and four monotonic timestamps (nanoseconds of a monotonic clock). -/
structure Order where
  id : Nat
  status : OrderStatus
  accepted_time : Nat
  prepared_time : Nat
  packed_time : Nat
  delivered_time : Nat
deriving DecidableEq, Repr

/-- Modelled from the spec (section 7): the domain error raised by
Order.advance_to on a non-successor target. -/
inductive OrderError where
  | InvalidTransition
deriving DecidableEq, Repr

/-- Modelled from the spec (section 4.2): advance_to succeeds only when the
target is exactly the immediate successor of the current state; on success
it assigns the corresponding timestamp from the monotonic clock and updates
the status; any other request fails with InvalidTransition and the order is
unchanged (the Except value carries no modified order). -/
def Order.advance_to (o : Order) (target : OrderStatus) (now : Nat) :
    Except OrderError Order :=
  match o.status, target with
  | .Accepted, .Prepared => .ok { o with status := .Prepared, prepared_time := now }
  | .Prepared, .Packed => .ok { o with status := .Packed, packed_time := now }
  | .Packed, .Delivered => .ok { o with status := .Delivered, delivered_time := now }
  | _, _ => .error .InvalidTransition

/-- Modelled from the spec (section 3.1): a producer creates an order with
status Accepted and accepted_time taken from the clock at construction. -/
def Order.fresh (oid : Nat) (now : Nat) : Order :=
  { id := oid, status := .Accepted, accepted_time := now,
    prepared_time := 0, packed_time := 0, delivered_time := 0 }

/-- Lead time of a delivered order: delivered_time minus accepted_time, as a
signed nanosecond duration (spec section 3.3). -/
def Order.leadTime (o : Order) : Int :=
  (o.delivered_time : Int) - (o.accepted_time : Int)

/-- Sum of lead times over a delivered store (spec section 3.3). -/
def sumLeadTime (orders : List Order) : Int :=
  (orders.map Order.leadTime).sum

/-- Modelled from the spec (sections 3.2 and 4.1): the bounded blocking
queue, with capacity, FIFO buffer, closed flag, push/pop counters and the
max-size watermark. -/
structure BBQueue (α : Type) where
  capacity : Nat
  buffer : List α
  isClosed : Bool
  push_count : Nat
  pop_count : Nat
  max_size : Nat
deriving DecidableEq, Repr

/-- A queue freshly constructed with a given capacity (spec section 3.2). -/
def BBQueue.init (α : Type) (c : Nat) : BBQueue α :=
  { capacity := c, buffer := [], isClosed := false,
    push_count := 0, pop_count := 0, max_size := 0 }

/-- Current number of buffered elements. -/
def BBQueue.size (q : BBQueue α) : Nat := q.buffer.length

/-- Modelled from the spec (section 4.1): push returns false immediately on
a closed queue; otherwise it enqueues when space exists (bumping push_count
and the max_size watermark under the same critical section) and the
timed-out outcome of a full queue is returning false with no effect.  The
timeout-parameterised variants push_for and try-push only choose how long
the caller may wait; their completed outcomes coincide with these. -/
def BBQueue.push (q : BBQueue α) (x : α) : Bool × BBQueue α :=
  if q.isClosed then (false, q)
  else if q.buffer.length < q.capacity then
    (true, { q with buffer := q.buffer ++ [x],
                    push_count := q.push_count + 1,
                    max_size := max q.max_size (q.buffer.length + 1) })
  else (false, q)

/-- Modelled from the spec (section 4.1): pop dequeues the FIFO head when
one is buffered (even after close: a closed queue drains before failing);
the empty outcomes (closed-and-empty, or timeout) return none with no
effect. -/
def BBQueue.pop (q : BBQueue α) : Option α × BBQueue α :=
  match q.buffer with
  | [] => (none, q)
  | x :: rest => (some x, { q with buffer := rest, pop_count := q.pop_count + 1 })

/-- Modelled from the spec (section 4.1): close sets the closed flag and
does not discard buffered elements; it is idempotent. -/
def BBQueue.close (q : BBQueue α) : BBQueue α :=
  { q with isClosed := true }

/-- An abstract client operation on a bounded blocking queue, used to state
invariants over every operation sequence. -/
inductive QOp (α : Type) where
  | push (x : α)
  | pop
  | close

/-- Apply one client operation, keeping only the queue state. -/
def BBQueue.applyOp (q : BBQueue α) : QOp α → BBQueue α
  | .push x => (q.push x).2
  | .pop => (q.pop).2
  | .close => q.close

/-- Apply a sequence of client operations. -/
def BBQueue.runOps (q : BBQueue α) (ops : List (QOp α)) : BBQueue α :=
  ops.foldl BBQueue.applyOp q

/-- Modelled from the spec (section 9, error taxonomy of the earliest
stages): the out-of-range failure of the linear stage's OrderQueue pop. -/
inductive LinearQueueError where
  | outOfRange
deriving DecidableEq, Repr

/-- Modelled from the spec (queue laws, section 8) and the linear stage's
test suite: the unbounded FIFO OrderQueue of stage 00. -/
structure OrderQueue where
  buffer : List Order
deriving DecidableEq, Repr

/-- A freshly constructed empty OrderQueue. -/
def OrderQueue.empty : OrderQueue := { buffer := [] }

/-- True when no element is buffered. -/
def OrderQueue.isEmpty (q : OrderQueue) : Bool := q.buffer.isEmpty

/-- Enqueue at the tail (single-producer FIFO of the linear stage). -/
def OrderQueue.push (q : OrderQueue) (o : Order) : OrderQueue :=
  { buffer := q.buffer ++ [o] }

/-- Modelled from the spec (section 9): pop on an empty OrderQueue fails
with the out-of-range error of the earliest stage; otherwise it dequeues
the FIFO head. -/
def OrderQueue.pop (q : OrderQueue) : Except LinearQueueError (Order × OrderQueue) :=
  match q.buffer with
  | [] => .error .outOfRange
  | o :: rest => .ok (o, { buffer := rest })

/-- Push a whole list, head first. -/
def OrderQueue.pushAll (q : OrderQueue) (os : List Order) : OrderQueue :=
  os.foldl OrderQueue.push q

/-- Pop up to n elements, stopping at the first failure. -/
def OrderQueue.popMany (q : OrderQueue) : Nat → List Order × OrderQueue
  | 0 => ([], q)
  | n + 1 =>
    match q.pop with
    | .error _ => ([], q)
    | .ok (o, q') =>
      let r := q'.popMany n
      (o :: r.1, r.2)

/-- Advance an order through the three stages in sequence, as the linear
pipeline's processing loop does; a failing step leaves the order as it was
at that point (the pipeline never issues an invalid transition itself). -/
def Order.deliverChain (o : Order) (now : Nat) : Order :=
  match o.advance_to .Prepared now with
  | .error _ => o
  | .ok o1 =>
    match o1.advance_to .Packed now with
    | .error _ => o1
    | .ok o2 =>
      match o2.advance_to .Delivered now with
      | .error _ => o2
      | .ok o3 => o3

/-- Modelled from the spec (section 6) and the linear runner main.cpp:
the metrics record of the linear stage. -/
structure LinearPipeline where
  queue : OrderQueue
  delivered : List Order
  accepted_count : Nat
  processed_count : Nat
  delivered_count : Nat
  total_processing_time : Int
  now : Nat
deriving DecidableEq, Repr

/-- A freshly constructed linear pipeline. -/
def LinearPipeline.init : LinearPipeline :=
  { queue := OrderQueue.empty, delivered := [], accepted_count := 0,
    processed_count := 0, delivered_count := 0, total_processing_time := 0,
    now := 0 }

/-- Modelled from the spec: the linear stage's submit enqueues the order
and counts it as accepted. -/
def LinearPipeline.submit (p : LinearPipeline) (o : Order) : LinearPipeline :=
  { p with queue := p.queue.push o,
           accepted_count := p.accepted_count + 1 }

/-- Modelled from the spec: process_all drains the queue in FIFO order,
advancing each order to Delivered, appending it to the delivered store,
counting it as processed and delivered, and accumulating the processing
time delivered_time minus accepted_time. -/
def LinearPipeline.processOne (acc : LinearPipeline) (o : Order) : LinearPipeline :=
  let d := o.deliverChain acc.now
  { acc with
      delivered := acc.delivered ++ [d],
      processed_count := acc.processed_count + 1,
      delivered_count := acc.delivered_count + 1,
      total_processing_time := acc.total_processing_time + d.leadTime }

def LinearPipeline.process_all (p : LinearPipeline) : LinearPipeline :=
  p.queue.buffer.foldl LinearPipeline.processOne { p with queue := OrderQueue.empty }

/-- The whitespace characters strtoull skips in the C locale: space,
horizontal tab, line feed, vertical tab, form feed, carriage return. -/
def isSpaceByte (c : Char) : Bool :=
  c = ' ' || c = '\t' || c = '\n' || c = '\x0b' || c = '\x0c' || c = '\r'

/-- The parse of the runner's positional argument, embedding
std::stoull(argv[1]) as main.cpp uses it (base 10, result cast to the
64-bit size_t): skip leading whitespace, take one optional sign, then the
maximal run of decimal digits, ignoring any trailing characters.  With no
digits stoull throws invalid_argument; with a digit magnitude above
2^64 - 1 it throws out_of_range; main.cpp catches either and exits 1, so
both failures are none here.  A minus sign negates in unsigned arithmetic
(the value wraps modulo 2^64), as strtoull specifies. -/
def stoull (s : String) : Option Nat :=
  let cs := s.data.dropWhile isSpaceByte
  let neg : Bool :=
    match cs with
    | '-' :: _ => true
    | _ => false
  let ds : List Char :=
    match cs with
    | '-' :: rest => rest
    | '+' :: rest => rest
    | _ => cs
  let digits := ds.takeWhile Char.isDigit
  if digits.isEmpty then none
  else
    let v := digits.foldl (fun acc c => acc * 10 + (c.toNat - 48)) 0
    if v ≤ 2 ^ 64 - 1 then
      some (if neg then (2 ^ 64 - v) % 2 ^ 64 else v)
    else none

/-- The runner's scenario (src/stages/stage_00_linear/solution/src/main.cpp):
submit orders with ids 1..n, then process_all. -/
def linearRun (n : Nat) : LinearPipeline :=
  ((List.range n).foldl
    (fun acc i => acc.submit (Order.fresh (i + 1) acc.now))
    LinearPipeline.init).process_all

/-- Milliseconds of a nanosecond duration, as duration_cast does. -/
def durationMs (t : Int) : Int := t / 1000000

/-- The four stdout lines the runner prints, with the exact literals of
main.cpp (note the two spaces after the first colon, aligning the column
with the longer labels below it). -/
def runnerLines (n : Nat) : List String :=
  let p := linearRun n
  ["Accepted:  " ++ toString p.accepted_count,
   "Processed: " ++ toString p.processed_count,
   "Delivered: " ++ toString p.delivered_count,
   "Total processing time (ms): " ++ toString (durationMs p.total_processing_time)]

/-- The example runner, from main.cpp: exit code and stdout lines as a
function of the argument list after the program name.  No argument defaults
to 500 orders; one argument is parsed (exit 1 on parse failure, with the
usage text on stderr and nothing on stdout); more than one argument is the
same usage failure. -/
def ops_main (args : List String) : Nat × List String :=
  match args with
  | [] => (0, runnerLines 500)
  | [s] =>
    match stoull s with
    | some n => (0, runnerLines n)
    | none => (1, [])
  | _ => (1, [])

/-- Modelled from the spec (section 4.4.1): the pipeline lifecycle states. -/
inductive PipelineState where
  | Created
  | Running
  | Stopping
  | Stopped
deriving DecidableEq, Repr

/-- Modelled from the spec (section 7): the lifecycle-misuse domain error. -/
inductive PipeError where
  | InvalidState
deriving DecidableEq, Repr

/-- Modelled from the spec (section 3.5): the configuration record fixed at
pipeline construction.  Defaults are implementation-defined and at least 1. -/
structure Config where
  q_in_capacity : Nat := 1024
  q_prepare_capacity : Nat := 1024
  q_pack_capacity : Nat := 1024
  prepare_workers : Nat := 2
  pack_workers : Nat := 2
  deliver_workers : Nat := 2
  push_timeout : Nat := 100000000
  pop_timeout : Nat := 50000000
deriving DecidableEq, Repr

/-- Modelled from the spec (sections 2 to 4): the core pipeline state, with
three bounded queues, the delivered store, the stage counters, the
backpressure counter, the used pool sizes, the lead-time accumulator, the
cancellation flag and the monotonic clock. -/
structure Pipeline where
  config : Config
  state : PipelineState
  cancelled : Bool
  now : Nat
  q_in : BBQueue Order
  q_prepare : BBQueue Order
  q_pack : BBQueue Order
  delivered : List Order
  accepted_count : Nat
  prepared_count : Nat
  packed_count : Nat
  delivered_count : Nat
  submit_timeout_count : Nat
  prepare_workers_used : Nat
  pack_workers_used : Nat
  deliver_workers_used : Nat
  total_lead_time : Int
deriving DecidableEq, Repr

/-- Modelled from the spec (section 3.3): the snapshot-readable metrics
aggregate. -/
structure Metrics where
  accepted_count : Nat
  prepared_count : Nat
  packed_count : Nat
  delivered_count : Nat
  q_in_push : Nat
  q_in_pop : Nat
  q_in_max_size : Nat
  q_prepare_push : Nat
  q_prepare_pop : Nat
  q_prepare_max_size : Nat
  q_pack_push : Nat
  q_pack_pop : Nat
  q_pack_max_size : Nat
  submit_timeout_count : Nat
  prepare_workers_used : Nat
  pack_workers_used : Nat
  deliver_workers_used : Nat
  total_lead_time : Int
deriving DecidableEq, Repr

/-- Modelled from the spec (section 4.4.6): metrics() returns a snapshot of
the counters; the per-queue counters live inside the queues. -/
def Pipeline.metrics (p : Pipeline) : Metrics :=
  { accepted_count := p.accepted_count,
    prepared_count := p.prepared_count,
    packed_count := p.packed_count,
    delivered_count := p.delivered_count,
    q_in_push := p.q_in.push_count,
    q_in_pop := p.q_in.pop_count,
    q_in_max_size := p.q_in.max_size,
    q_prepare_push := p.q_prepare.push_count,
    q_prepare_pop := p.q_prepare.pop_count,
    q_prepare_max_size := p.q_prepare.max_size,
    q_pack_push := p.q_pack.push_count,
    q_pack_pop := p.q_pack.pop_count,
    q_pack_max_size := p.q_pack.max_size,
    submit_timeout_count := p.submit_timeout_count,
    prepare_workers_used := p.prepare_workers_used,
    pack_workers_used := p.pack_workers_used,
    deliver_workers_used := p.deliver_workers_used,
    total_lead_time := p.total_lead_time }

/-- Modelled from the spec (section 4.4.6): delivered_orders() returns a
consistent view of the delivered store. -/
def Pipeline.delivered_orders (p : Pipeline) : List Order := p.delivered

/-- Modelled from the spec (section 6): construct(config) yields a pipeline
in Created with empty queues of the configured capacities and all counters
zero. -/
def Pipeline.init (cfg : Config) : Pipeline :=
  { config := cfg, state := .Created, cancelled := false, now := 0,
    q_in := BBQueue.init Order cfg.q_in_capacity,
    q_prepare := BBQueue.init Order cfg.q_prepare_capacity,
    q_pack := BBQueue.init Order cfg.q_pack_capacity,
    delivered := [], accepted_count := 0, prepared_count := 0,
    packed_count := 0, delivered_count := 0, submit_timeout_count := 0,
    prepare_workers_used := 0, pack_workers_used := 0,
    deliver_workers_used := 0, total_lead_time := 0 }

/-- Modelled from the spec (section 4.4.1): start() moves Created to
Running (spawning the configured worker pools, reported in workers_used),
is idempotent in Running, and fails with InvalidState in Stopping or
Stopped. -/
def Pipeline.start (p : Pipeline) : Except PipeError Pipeline :=
  match p.state with
  | .Created =>
    .ok { p with state := .Running,
                 prepare_workers_used := p.config.prepare_workers,
                 pack_workers_used := p.config.pack_workers,
                 deliver_workers_used := p.config.deliver_workers }
  | .Running => .ok p
  | _ => .error .InvalidState

/-- Modelled from the spec (section 4.4.2): submit returns true iff the
state is Running and the order was enqueued into Q_in within push_timeout;
on success accepted_count mirrors the queue's push counter; on timeout only
submit_timeout_count is bumped; outside Running, and on the queue-closed
outcome, it returns false touching nothing. -/
def Pipeline.submit (p : Pipeline) (oid : Nat) : Bool × Pipeline :=
  if p.state = .Running then
    let r := p.q_in.push (Order.fresh oid p.now)
    if r.1 then
      (true, { p with q_in := r.2, accepted_count := p.accepted_count + 1 })
    else if p.q_in.isClosed then (false, p)
    else (false, { p with submit_timeout_count := p.submit_timeout_count + 1 })
  else (false, p)

/-- Submit a list of orders in sequence, collecting each boolean outcome. -/
def Pipeline.submitAll (p : Pipeline) : List Nat → Pipeline × List Bool
  | [] => (p, [])
  | oid :: rest =>
    let r := p.submit oid
    let rr := r.2.submitAll rest
    (rr.1, r.1 :: rr.2)

/-- The ids among a submission batch whose submit returned true. -/
def successIds : List Nat → List Bool → List Nat
  | oid :: ids, b :: bs =>
    if b then oid :: successIds ids bs else successIds ids bs
  | _, _ => []

/-- Modelled from the spec (section 4.3): one atomic step of a prepare
worker: pop from Q_in, advance the order to Prepared, count it, and emit it
to Q_prepare.  If nothing can be popped, the advance is invalid, or the
emit cannot complete, the state is unchanged (the worker is still waiting). -/
def Pipeline.prepareStepCore (p : Pipeline) : Pipeline :=
  match p.q_in.pop with
  | (none, _) => p
  | (some o, qin') =>
    match o.advance_to .Prepared p.now with
    | .error _ => p
    | .ok o' =>
      let r := p.q_prepare.push o'
      if r.1 then
        { p with q_in := qin', q_prepare := r.2,
                 prepared_count := p.prepared_count + 1 }
      else p

/-- Modelled from the spec (section 4.3): one atomic step of a pack worker:
pop from Q_prepare, advance to Packed, count, emit to Q_pack. -/
def Pipeline.packStepCore (p : Pipeline) : Pipeline :=
  match p.q_prepare.pop with
  | (none, _) => p
  | (some o, qprep') =>
    match o.advance_to .Packed p.now with
    | .error _ => p
    | .ok o' =>
      let r := p.q_pack.push o'
      if r.1 then
        { p with q_prepare := qprep', q_pack := r.2,
                 packed_count := p.packed_count + 1 }
      else p

/-- Modelled from the spec (section 4.3): one atomic step of a deliver
worker: pop from Q_pack, advance to Delivered, count, append to the
delivered store and accumulate the order's lead time. -/
def Pipeline.deliverStepCore (p : Pipeline) : Pipeline :=
  match p.q_pack.pop with
  | (none, _) => p
  | (some o, qpack') =>
    match o.advance_to .Delivered p.now with
    | .error _ => p
    | .ok o' =>
      { p with q_pack := qpack',
               delivered := p.delivered ++ [o'],
               delivered_count := p.delivered_count + 1,
               total_lead_time := p.total_lead_time + o'.leadTime }

/-- A prepare worker runs between start and shutdown (spec section 5). -/
def Pipeline.prepareStep (p : Pipeline) : Pipeline :=
  if p.state = .Running then p.prepareStepCore else p

/-- A pack worker runs between start and shutdown (spec section 5). -/
def Pipeline.packStep (p : Pipeline) : Pipeline :=
  if p.state = .Running then p.packStepCore else p

/-- A deliver worker runs between start and shutdown (spec section 5). -/
def Pipeline.deliverStep (p : Pipeline) : Pipeline :=
  if p.state = .Running then p.deliverStepCore else p

/-- Weighted occupancy of the three queues: each order still needs as many
stage steps as its distance from the delivered store, so every completed
drain step decreases this by exactly one. -/
def Pipeline.drainMeasure (p : Pipeline) : Nat :=
  3 * p.q_in.size + 2 * p.q_prepare.size + p.q_pack.size

/-- Modelled from the spec (section 4.4.3): during graceful drain the
downstream stages keep consuming, so internal emits always find room; the
model schedules the deepest non-empty stage first, which keeps every chosen
emit target empty. -/
def Pipeline.drainStep (p : Pipeline) : Pipeline :=
  if p.q_pack.size ≠ 0 then p.deliverStepCore
  else if p.q_prepare.size ≠ 0 then p.packStepCore
  else p.prepareStepCore

/-- Run drain steps until every queue is empty or the fuel is exhausted;
the fuel drainMeasure is exactly the number of steps a full drain takes. -/
def Pipeline.drainFuel : Nat → Pipeline → Pipeline
  | 0, p => p
  | n + 1, p => if p.drainMeasure = 0 then p else Pipeline.drainFuel n p.drainStep

/-- Modelled from the spec (section 4.4.3): graceful shutdown moves Running
to Stopping, closes Q_in, lets the workers drain every queue in stage order
(each downstream queue is closed once its upstream pool has exited, which
the sequential model folds into closing them when the drain completes), and
transitions to Stopped.  Idempotent in Stopped. -/
def Pipeline.shutdown (p : Pipeline) : Pipeline :=
  if p.state = .Stopped then p
  else
    let p1 := { p with state := .Stopping, q_in := p.q_in.close }
    let p2 := Pipeline.drainFuel p1.drainMeasure p1
    { p2 with state := .Stopped,
              q_prepare := p2.q_prepare.close,
              q_pack := p2.q_pack.close }

/-- Modelled from the spec (section 4.4.4): immediate shutdown raises the
cancellation flag, closes all three queues without draining them, and
transitions to Stopped. -/
def Pipeline.shutdown_now (p : Pipeline) : Pipeline :=
  if p.state = .Stopped then p
  else
    { p with state := .Stopped, cancelled := true,
             q_in := p.q_in.close,
             q_prepare := p.q_prepare.close,
             q_pack := p.q_pack.close }

/-- An observable event of a pipeline run: producer and worker actions,
lifecycle calls, and clock advance.  A metrics() snapshot may be taken
between any two events. -/
inductive Op where
  | tick (dt : Nat)
  | start
  | submit (oid : Nat)
  | prepare
  | pack
  | deliver
  | shutdown
  | shutdownNow

/-- Apply one event; a start in an invalid lifecycle state reports the
domain error to the caller and leaves the pipeline unchanged. -/
def Pipeline.applyOp (p : Pipeline) : Op → Pipeline
  | .tick dt => { p with now := p.now + dt }
  | .start =>
    match p.start with
    | .ok p' => p'
    | .error _ => p
  | .submit oid => (p.submit oid).2
  | .prepare => p.prepareStep
  | .pack => p.packStep
  | .deliver => p.deliverStep
  | .shutdown => p.shutdown
  | .shutdownNow => p.shutdown_now

/-- A pipeline run: every state the model can reach from construction. -/
def Pipeline.run (cfg : Config) (ops : List Op) : Pipeline :=
  ops.foldl Pipeline.applyOp (Pipeline.init cfg)

/-- The scenario of the graceful-shutdown law: construct, start, submit a
batch sequentially, shutdown; paired with the submission outcomes. -/
def runSubmitShutdown (cfg : Config) (ids : List Nat) : Pipeline × List Bool :=
  let sr := ((Pipeline.init cfg).applyOp .start).submitAll ids
  (sr.1.shutdown, sr.2)

/-- The ids in flight, ordered from the delivered store back to Q_in:
drain steps move orders without creating, losing or reordering any, so this
list is invariant under the drain schedule. -/
def Pipeline.flowIds (p : Pipeline) : List Nat :=
  p.delivered.map Order.id ++ p.q_pack.buffer.map Order.id
    ++ p.q_prepare.buffer.map Order.id ++ p.q_in.buffer.map Order.id

/-- The stage-chain inequality every metrics snapshot must satisfy
(spec section 8). -/
def Metrics.chainOk (m : Metrics) : Prop :=
  m.delivered_count ≤ m.packed_count ∧
  m.packed_count ≤ m.prepared_count ∧
  m.prepared_count ≤ m.accepted_count

/-- Pointwise order on snapshots: every counter of the earlier snapshot is
at most the corresponding counter of the later one (spec section 8). -/
def Metrics.le (a b : Metrics) : Prop :=
  a.accepted_count ≤ b.accepted_count ∧
  a.prepared_count ≤ b.prepared_count ∧
  a.packed_count ≤ b.packed_count ∧
  a.delivered_count ≤ b.delivered_count ∧
  a.q_in_push ≤ b.q_in_push ∧
  a.q_in_pop ≤ b.q_in_pop ∧
  a.q_in_max_size ≤ b.q_in_max_size ∧
  a.q_prepare_push ≤ b.q_prepare_push ∧
  a.q_prepare_pop ≤ b.q_prepare_pop ∧
  a.q_prepare_max_size ≤ b.q_prepare_max_size ∧
  a.q_pack_push ≤ b.q_pack_push ∧
  a.q_pack_pop ≤ b.q_pack_pop ∧
  a.q_pack_max_size ≤ b.q_pack_max_size ∧
  a.submit_timeout_count ≤ b.submit_timeout_count ∧
  a.prepare_workers_used ≤ b.prepare_workers_used ∧
  a.pack_workers_used ≤ b.pack_workers_used ∧
  a.deliver_workers_used ≤ b.deliver_workers_used ∧
  a.total_lead_time ≤ b.total_lead_time

/-- The snapshot with the backpressure counter masked, to state the frame
condition of a failed submit (spec section 8: submit returning false has no
counter side effect except possibly submit_timeout_count). -/
def Metrics.clearTimeout (m : Metrics) : Metrics :=
  { m with submit_timeout_count := 0 }

/-- The structural invariant of reachable pipeline states: queue counters
account for their buffers, pipeline stage counters mirror the queue
counters, buffered orders carry the status of their stage and timestamps
bounded by the clock, and the lead-time accumulator sums the delivered
store. -/
structure PipelineInv (p : Pipeline) : Prop where
  hin : p.q_in.push_count = p.q_in.pop_count + p.q_in.buffer.length
  hprep : p.q_prepare.push_count = p.q_prepare.pop_count + p.q_prepare.buffer.length
  hpack : p.q_pack.push_count = p.q_pack.pop_count + p.q_pack.buffer.length
  hacc : p.accepted_count = p.q_in.push_count
  hpc1 : p.prepared_count = p.q_in.pop_count
  hpc2 : p.prepared_count = p.q_prepare.push_count
  hkc1 : p.packed_count = p.q_prepare.pop_count
  hkc2 : p.packed_count = p.q_pack.push_count
  hdc1 : p.delivered_count = p.q_pack.pop_count
  hdc2 : p.delivered_count = p.delivered.length
  hsin : ∀ o ∈ p.q_in.buffer, o.status = OrderStatus.Accepted ∧ o.accepted_time ≤ p.now
  hsprep : ∀ o ∈ p.q_prepare.buffer, o.status = OrderStatus.Prepared ∧ o.accepted_time ≤ p.now
  hspack : ∀ o ∈ p.q_pack.buffer, o.status = OrderStatus.Packed ∧ o.accepted_time ≤ p.now
  hlead : p.total_lead_time = sumLeadTime p.delivered

/-- Before start, no worker pool has been spawned: in Created the reported
workers_used values are still zero (they are assigned when start spawns the
pools). -/
def WorkersInit (p : Pipeline) : Prop :=
  p.state = PipelineState.Created →
    p.prepare_workers_used = 0 ∧ p.pack_workers_used = 0 ∧
    p.deliver_workers_used = 0

/-- Claim C3: advance_to succeeds exactly when the target is the immediate
successor of the current status; on success it updates the status and sets
only the timestamp of the new status, leaving id, accepted_time and the
other timestamps unchanged; on any other target it fails with
InvalidTransition, and the order value is untouched (the error branch of
the pure function returns no modified order). -/
theorem advance_to_contract (o : Order) (t : OrderStatus) (now : Nat) :
    ((∃ o', o.advance_to t now = .ok o') ↔ o.status.next? = some t) ∧
    (∀ o', o.advance_to t now = .ok o' →
      o'.id = o.id ∧ o'.status = t ∧ o'.accepted_time = o.accepted_time ∧
      (t = .Prepared → o'.prepared_time = now ∧
        o'.packed_time = o.packed_time ∧ o'.delivered_time = o.delivered_time) ∧
      (t = .Packed → o'.packed_time = now ∧
        o'.prepared_time = o.prepared_time ∧ o'.delivered_time = o.delivered_time) ∧
      (t = .Delivered → o'.delivered_time = now ∧
        o'.prepared_time = o.prepared_time ∧ o'.packed_time = o.packed_time)) ∧
    (o.status.next? ≠ some t → o.advance_to t now = .error .InvalidTransition) := by
  cases hst : o.status <;> cases t <;>
    simp [Order.advance_to, OrderStatus.next?, hst]

/-- Concrete instance of the advance_to contract: from Accepted, a skip
straight to Packed is refused with InvalidTransition. -/
theorem advance_to_contract_witness :
    (Order.fresh 7 5).advance_to .Packed 9 = .error .InvalidTransition :=
  (advance_to_contract (Order.fresh 7 5) .Packed 9).2.2 (by decide)

theorem bbq_applyOp_inv {α : Type} (q : BBQueue α) (op : QOp α)
    (h1 : q.push_count = q.pop_count + q.buffer.length)
    (h2 : q.buffer.length ≤ q.capacity) :
    (q.applyOp op).push_count = (q.applyOp op).pop_count + (q.applyOp op).buffer.length ∧
    (q.applyOp op).buffer.length ≤ (q.applyOp op).capacity ∧
    (q.applyOp op).capacity = q.capacity ∧
    q.max_size ≤ (q.applyOp op).max_size := by
  cases op with
  | push x =>
    by_cases hc : q.isClosed <;> by_cases hl : q.buffer.length < q.capacity <;>
      simp [BBQueue.applyOp, BBQueue.push, hc, hl] <;> omega
  | pop =>
    cases hb : q.buffer with
    | nil =>
      simp [BBQueue.applyOp, BBQueue.pop, hb]
      simp [hb] at h1
      omega
    | cons y rest =>
      refine ⟨?_, ?_, ?_, ?_⟩ <;> simp [BBQueue.applyOp, BBQueue.pop, hb] <;>
        [skip; skip] <;> simp [hb] at h1 h2 <;> omega
  | close => simp [BBQueue.applyOp, BBQueue.close, h1, h2]

theorem bbq_runOps_inv {α : Type} (q : BBQueue α) (ops : List (QOp α))
    (h1 : q.push_count = q.pop_count + q.buffer.length)
    (h2 : q.buffer.length ≤ q.capacity) :
    (q.runOps ops).push_count
      = (q.runOps ops).pop_count + (q.runOps ops).buffer.length ∧
    (q.runOps ops).buffer.length ≤ (q.runOps ops).capacity ∧
    (q.runOps ops).capacity = q.capacity ∧
    q.max_size ≤ (q.runOps ops).max_size := by
  induction ops generalizing q with
  | nil => exact ⟨h1, h2, rfl, le_refl _⟩
  | cons op rest ih =>
    have hstep := bbq_applyOp_inv q op h1 h2
    have hrest := ih (q.applyOp op) hstep.1 hstep.2.1
    refine ⟨hrest.1, hrest.2.1, ?_, le_trans hstep.2.2.2 hrest.2.2.2⟩
    rw [BBQueue.runOps] at hrest ⊢
    simp only [List.foldl_cons]
    exact hrest.2.2.1.trans hstep.2.2.1

/-- Claim C5: from a fresh queue of capacity c, after any operation
sequence the size stays within capacity, push_count is at least pop_count
with size equal to their difference, and the max_size watermark is
non-decreasing along any continuation of the run. -/
theorem queue_invariants_hold (c : Nat) (_hc : 0 < c)
    (ops more : List (QOp Nat)) :
    ((BBQueue.init Nat c).runOps ops).size ≤ c ∧
    ((BBQueue.init Nat c).runOps ops).pop_count
      ≤ ((BBQueue.init Nat c).runOps ops).push_count ∧
    ((BBQueue.init Nat c).runOps ops).size
      = ((BBQueue.init Nat c).runOps ops).push_count
        - ((BBQueue.init Nat c).runOps ops).pop_count ∧
    ((BBQueue.init Nat c).runOps ops).max_size
      ≤ ((BBQueue.init Nat c).runOps (ops ++ more)).max_size := by
  have h := bbq_runOps_inv (BBQueue.init Nat c) ops
    (by simp [BBQueue.init]) (by simp [BBQueue.init])
  have happ : (BBQueue.init Nat c).runOps (ops ++ more)
      = ((BBQueue.init Nat c).runOps ops).runOps more := by
    simp [BBQueue.runOps, List.foldl_append]
  have h2 := bbq_runOps_inv ((BBQueue.init Nat c).runOps ops) more h.1 h.2.1
  have hcap : ((BBQueue.init Nat c).runOps ops).capacity = c := h.2.2.1
  refine ⟨?_, ?_, ?_, ?_⟩
  · simp only [BBQueue.size]
    have := h.2.1
    omega
  · have := h.1
    omega
  · simp only [BBQueue.size]
    have := h.1
    omega
  · rw [happ]
    exact h2.2.2.2

/-- Concrete instance of the queue invariants at capacity 2 after two
pushes and one pop. -/
theorem queue_invariants_hold_witness :
    ((BBQueue.init Nat 2).runOps [QOp.push 1, QOp.push 2, QOp.pop]).size ≤ 2 :=
  (queue_invariants_hold 2 (by decide) [QOp.push 1, QOp.push 2, QOp.pop] []).1

theorem bbq_applyOp_closed {α : Type} (q : BBQueue α) (op : QOp α)
    (h : q.isClosed = true) : (q.applyOp op).isClosed = true := by
  cases op with
  | push x => simp [BBQueue.applyOp, BBQueue.push, h]
  | pop => cases hb : q.buffer <;> simp [BBQueue.applyOp, BBQueue.pop, hb, h]
  | close => simp [BBQueue.applyOp, BBQueue.close]

theorem bbq_runOps_closed {α : Type} (q : BBQueue α) (ops : List (QOp α))
    (h : q.isClosed = true) : (q.runOps ops).isClosed = true := by
  induction ops generalizing q with
  | nil => exact h
  | cons op rest ih => exact ih (q.applyOp op) (bbq_applyOp_closed q op h)

/-- Claim C6: a push into a closed queue returns false and has no other
effect (its only failure channel is the boolean); close is idempotent, a
closed queue stays closed under every further operation, and a close on an
already-closed queue is a no-op that leaves buffer and counters unchanged. -/
theorem queue_close_contract (q : BBQueue Nat) (x : Nat)
    (ops : List (QOp Nat)) :
    (q.isClosed = true → q.push x = (false, q)) ∧
    q.close.close = q.close ∧
    (q.close.runOps ops).isClosed = true ∧
    (q.isClosed = true → q.close = q) := by
  refine ⟨?_, rfl, ?_, ?_⟩
  · intro h
    simp [BBQueue.push, h]
  · exact bbq_runOps_closed q.close ops rfl
  · intro h
    cases q
    simp [BBQueue.close] at h ⊢
    exact h

/-- Concrete instance of the close contract: a push into a freshly closed
queue of capacity 4 returns false and leaves the queue as it was. -/
theorem queue_close_contract_witness :
    ((BBQueue.init Nat 4).close).push 9 = (false, (BBQueue.init Nat 4).close) :=
  (queue_close_contract ((BBQueue.init Nat 4).close) 9 []).1 rfl

theorem orderqueue_pushAll_buffer (q : OrderQueue) (os : List Order) :
    (q.pushAll os).buffer = q.buffer ++ os := by
  induction os generalizing q with
  | nil => simp [OrderQueue.pushAll]
  | cons o rest ih =>
    simp [OrderQueue.pushAll] at ih ⊢
    rw [ih (q.push o)]
    simp [OrderQueue.push]

theorem orderqueue_popMany_spec (os : List Order) (q : OrderQueue)
    (h : q.buffer = os) :
    q.popMany os.length = (os, OrderQueue.empty) := by
  induction os generalizing q with
  | nil =>
    cases q
    simp at h
    subst h
    rfl
  | cons o rest ih =>
    cases q
    simp at h
    subst h
    simp [OrderQueue.popMany, OrderQueue.pop, ih { buffer := rest } rfl]

/-- Claim C10: on the linear stage's OrderQueue, pop of an empty queue
fails with the out-of-range error; after pushing a batch from a single
producer, popping as many times returns the batch in FIFO order, and the
next pop fails with the out-of-range error again. -/
theorem order_queue_fifo_contract (os : List Order) :
    OrderQueue.empty.pop = .error .outOfRange ∧
    (OrderQueue.empty.pushAll os).popMany os.length = (os, OrderQueue.empty) ∧
    ((OrderQueue.empty.pushAll os).popMany os.length).2.pop
      = .error .outOfRange := by
  have hb : (OrderQueue.empty.pushAll os).buffer = os := by
    rw [orderqueue_pushAll_buffer]
    rfl
  have hp := orderqueue_popMany_spec os (OrderQueue.empty.pushAll os) hb
  refine ⟨rfl, hp, ?_⟩
  rw [hp]
  rfl

/-- Claim C8: start in Created transitions to Running (reporting the
configured pool sizes in workers_used); start in Running is idempotent;
start in Stopping or Stopped fails with InvalidState. -/
theorem start_contract (p : Pipeline) :
    (p.state = .Created → p.start = .ok { p with
        state := .Running,
        prepare_workers_used := p.config.prepare_workers,
        pack_workers_used := p.config.pack_workers,
        deliver_workers_used := p.config.deliver_workers }) ∧
    (p.state = .Running → p.start = .ok p) ∧
    (p.state = .Stopping ∨ p.state = .Stopped →
      p.start = .error .InvalidState) := by
  refine ⟨?_, ?_, ?_⟩ <;> intro h
  · simp [Pipeline.start, h]
  · simp [Pipeline.start, h]
  · cases h <;> simp [Pipeline.start, *]

/-- Concrete instance of the start contract: a freshly constructed pipeline
moves from Created to Running. -/
theorem start_contract_witness :
    (Pipeline.init {}).start = .ok { Pipeline.init {} with
      state := .Running,
      prepare_workers_used := (Pipeline.init {}).config.prepare_workers,
      pack_workers_used := (Pipeline.init {}).config.pack_workers,
      deliver_workers_used := (Pipeline.init {}).config.deliver_workers } :=
  (start_contract (Pipeline.init {})).1 rfl

/-- Claim C2: submit returns true exactly when the pipeline is Running and
the push into Q_in completed within the admission timeout; and a submit
that returns false changes no metrics counter other than possibly
submit_timeout_count. -/
theorem submit_contract (p : Pipeline) (oid : Nat) :
    ((p.submit oid).1 = true ↔
      p.state = .Running ∧ (p.q_in.push (Order.fresh oid p.now)).1 = true) ∧
    ((p.submit oid).1 = false →
      (p.submit oid).2.metrics.clearTimeout = p.metrics.clearTimeout) := by
  by_cases hs : p.state = .Running
  · by_cases hq : (p.q_in.push (Order.fresh oid p.now)).1 = true
    · simp [Pipeline.submit, hs, hq]
    · by_cases hc : p.q_in.isClosed
      · simp [Pipeline.submit, hs, hq, hc]
      · simp [Pipeline.submit, hs, hq, hc, Pipeline.metrics, Metrics.clearTimeout]
  · simp [Pipeline.submit, hs]

/-- Concrete instance of the submit contract: a submit before start returns
false and leaves every masked counter unchanged. -/
theorem submit_contract_witness :
    ((Pipeline.init {}).submit 7).2.metrics.clearTimeout
      = (Pipeline.init {}).metrics.clearTimeout :=
  (submit_contract (Pipeline.init {}) 7).2 (by decide)

theorem deliverChain_fresh (k : Nat) :
    (Order.fresh k 0).deliverChain 0
      = { id := k, status := .Delivered, accepted_time := 0,
          prepared_time := 0, packed_time := 0, delivered_time := 0 } := rfl

theorem processOne_fresh (a : LinearPipeline) (k : Nat) (hnow : a.now = 0) :
    a.processOne (Order.fresh k 0)
      = { a with
          delivered := a.delivered ++
            [{ id := k, status := .Delivered, accepted_time := 0,
               prepared_time := 0, packed_time := 0, delivered_time := 0 }],
          processed_count := a.processed_count + 1,
          delivered_count := a.delivered_count + 1 } := by
  simp [LinearPipeline.processOne, hnow, deliverChain_fresh, Order.leadTime]

theorem processFold_fresh (ids : List Nat) (a : LinearPipeline)
    (hnow : a.now = 0) :
    ((ids.map (fun k => Order.fresh k 0)).foldl LinearPipeline.processOne a).accepted_count
      = a.accepted_count ∧
    ((ids.map (fun k => Order.fresh k 0)).foldl LinearPipeline.processOne a).processed_count
      = a.processed_count + ids.length ∧
    ((ids.map (fun k => Order.fresh k 0)).foldl LinearPipeline.processOne a).delivered_count
      = a.delivered_count + ids.length ∧
    ((ids.map (fun k => Order.fresh k 0)).foldl LinearPipeline.processOne a).total_processing_time
      = a.total_processing_time := by
  induction ids generalizing a with
  | nil => simp
  | cons k rest ih =>
    have hstep := processOne_fresh a k hnow
    have hnow' : (a.processOne (Order.fresh k 0)).now = 0 := by
      rw [hstep]
      exact hnow
    have h := ih (a.processOne (Order.fresh k 0)) hnow'
    simp only [List.map_cons, List.foldl_cons, List.length_cons] at h ⊢
    rw [h.1, h.2.1, h.2.2.1, h.2.2.2, hstep]
    refine ⟨rfl, ?_, ?_, rfl⟩ <;> simp <;> omega

theorem linear_submit_fold (n : Nat) :
    ((List.range n).foldl
      (fun acc i => acc.submit (Order.fresh (i + 1) acc.now))
      LinearPipeline.init).accepted_count = n ∧
    ((List.range n).foldl
      (fun acc i => acc.submit (Order.fresh (i + 1) acc.now))
      LinearPipeline.init).queue.buffer
      = ((List.range n).map (fun i => i + 1)).map (fun k => Order.fresh k 0) ∧
    ((List.range n).foldl
      (fun acc i => acc.submit (Order.fresh (i + 1) acc.now))
      LinearPipeline.init).now = 0 ∧
    ((List.range n).foldl
      (fun acc i => acc.submit (Order.fresh (i + 1) acc.now))
      LinearPipeline.init).processed_count = 0 ∧
    ((List.range n).foldl
      (fun acc i => acc.submit (Order.fresh (i + 1) acc.now))
      LinearPipeline.init).delivered_count = 0 ∧
    ((List.range n).foldl
      (fun acc i => acc.submit (Order.fresh (i + 1) acc.now))
      LinearPipeline.init).total_processing_time = 0 := by
  induction n with
  | zero => simp [LinearPipeline.init, OrderQueue.empty]
  | succ m ih =>
    rw [List.range_succ]
    simp only [List.foldl_append, List.foldl_cons, List.foldl_nil,
      List.map_append, List.map_cons, List.map_nil]
    rw [LinearPipeline.submit]
    refine ⟨?_, ?_, ?_, ?_, ?_, ?_⟩ <;>
      simp [OrderQueue.push, ih.1, ih.2.1, ih.2.2.1, ih.2.2.2.1,
        ih.2.2.2.2.1, ih.2.2.2.2.2]

theorem linearRun_metrics (n : Nat) :
    (linearRun n).accepted_count = n ∧
    (linearRun n).processed_count = n ∧
    (linearRun n).delivered_count = n ∧
    (linearRun n).total_processing_time = 0 := by
  have hs := linear_submit_fold n
  rw [linearRun, LinearPipeline.process_all]
  rw [hs.2.1]
  have hnow : ({ (List.range n).foldl
      (fun acc i => acc.submit (Order.fresh (i + 1) acc.now))
      LinearPipeline.init with queue := OrderQueue.empty } : LinearPipeline).now
      = 0 := hs.2.2.1
  have h := processFold_fresh ((List.range n).map (fun i => i + 1)) _ hnow
  refine ⟨?_, ?_, ?_, ?_⟩
  · rw [h.1]
    exact hs.1
  · rw [h.2.1]
    simp [hs.2.2.2.1]
  · rw [h.2.2.1]
    simp [hs.2.2.2.2.1]
  · rw [h.2.2.2]
    exact hs.2.2.2.2.2

theorem runnerLines_eq (n : Nat) :
    runnerLines n
      = ["Accepted:  " ++ toString n,
         "Processed: " ++ toString n,
         "Delivered: " ++ toString n,
         "Total processing time (ms): " ++ toString (0 : Int)] := by
  have h := linearRun_metrics n
  rw [runnerLines]
  simp only [h.1, h.2.1, h.2.2.1, h.2.2.2, durationMs]
  norm_num

/-- Counterexample to claim C9 as stated: the runner does not print the
line with a single space after the first colon; main.cpp aligns the value
column, so the first line carries two spaces after the colon. -/
theorem runner_output_counterexample :
    (ops_main ["3"]).2.head? = some "Accepted:  3" ∧
    "Accepted:  3" ≠ "Accepted: 3" := by
  constructor
  · rfl
  · decide

/-- Claim C9 as amended: the runner accepts one optional positional
argument n (defaulting to 500), submits n orders, processes them all, and
prints the four stdout lines of main.cpp, the first being
"Accepted:" followed by TWO spaces and n (the literal in main.cpp aligns
the value column), then "Processed: n", "Delivered: n" and
"Total processing time (ms): t" (t = 0 under the model clock); it exits 0
on success and 1 on argument parse failure (including surplus arguments).
Success and failure of the parse are exactly those of std::stoull through
the catch-all of main.cpp: whitespace, one sign and trailing garbage are
tolerated, a negative value wraps modulo 2^64, while an argument with no
digits (invalid_argument) or a digit magnitude beyond 2^64 - 1
(out_of_range) exits 1 printing nothing on stdout. -/
theorem runner_contract (n : Nat) (s : String)
    (hs : stoull s = some n) :
    ops_main [s] = (0,
      ["Accepted:  " ++ toString n,
       "Processed: " ++ toString n,
       "Delivered: " ++ toString n,
       "Total processing time (ms): " ++ toString (0 : Int)]) ∧
    ops_main [] = (0,
      ["Accepted:  " ++ toString 500,
       "Processed: " ++ toString 500,
       "Delivered: " ++ toString 500,
       "Total processing time (ms): " ++ toString (0 : Int)]) ∧
    (∀ t : String, stoull t = none → ops_main [t] = (1, [])) ∧
    (∀ a b : String, ∀ rest : List String,
      ops_main (a :: b :: rest) = (1, [])) := by
  refine ⟨?_, ?_, ?_, ?_⟩
  · simp [ops_main, hs, runnerLines_eq]
  · simp [ops_main, runnerLines_eq]
  · intro t ht
    simp [ops_main, ht]
  · intro a b rest
    rfl

/-- Concrete instance of the amended runner contract at argument 3. -/
theorem runner_contract_witness :
    ops_main ["3"] = (0,
      ["Accepted:  " ++ toString 3,
       "Processed: " ++ toString 3,
       "Delivered: " ++ toString 3,
       "Total processing time (ms): " ++ toString (0 : Int)]) :=
  (runner_contract 3 "3" (by decide)).1

theorem prepareStepCore_split (p : Pipeline) :
    p.prepareStepCore = p ∨
    ∃ o rest, p.q_in.buffer = o :: rest ∧ o.status = OrderStatus.Accepted ∧
      p.q_prepare.isClosed = false ∧
      p.q_prepare.buffer.length < p.q_prepare.capacity ∧
      p.prepareStepCore = { p with
        q_in := { p.q_in with buffer := rest, pop_count := p.q_in.pop_count + 1 },
        q_prepare := { p.q_prepare with
          buffer := p.q_prepare.buffer
            ++ [{ o with status := .Prepared, prepared_time := p.now }],
          push_count := p.q_prepare.push_count + 1,
          max_size := max p.q_prepare.max_size (p.q_prepare.buffer.length + 1) },
        prepared_count := p.prepared_count + 1 } := by
  cases hb : p.q_in.buffer with
  | nil => exact Or.inl (by simp [Pipeline.prepareStepCore, BBQueue.pop, hb])
  | cons o rest =>
    cases hst : o.status with
    | Accepted =>
      by_cases hcl : p.q_prepare.isClosed
      · exact Or.inl (by
          simp [Pipeline.prepareStepCore, BBQueue.pop, hb, Order.advance_to,
            hst, BBQueue.push, hcl])
      · by_cases hfull : p.q_prepare.buffer.length < p.q_prepare.capacity
        · refine Or.inr ⟨o, rest, rfl, hst, by simp [hcl], hfull, ?_⟩
          simp [Pipeline.prepareStepCore, BBQueue.pop, hb, Order.advance_to,
            hst, BBQueue.push, hcl, hfull]
        · exact Or.inl (by
            simp [Pipeline.prepareStepCore, BBQueue.pop, hb, Order.advance_to,
              hst, BBQueue.push, hcl, hfull])
    | Prepared => exact Or.inl (by
        simp [Pipeline.prepareStepCore, BBQueue.pop, hb, Order.advance_to, hst])
    | Packed => exact Or.inl (by
        simp [Pipeline.prepareStepCore, BBQueue.pop, hb, Order.advance_to, hst])
    | Delivered => exact Or.inl (by
        simp [Pipeline.prepareStepCore, BBQueue.pop, hb, Order.advance_to, hst])

theorem packStepCore_split (p : Pipeline) :
    p.packStepCore = p ∨
    ∃ o rest, p.q_prepare.buffer = o :: rest ∧ o.status = OrderStatus.Prepared ∧
      p.q_pack.isClosed = false ∧
      p.q_pack.buffer.length < p.q_pack.capacity ∧
      p.packStepCore = { p with
        q_prepare := { p.q_prepare with
          buffer := rest, pop_count := p.q_prepare.pop_count + 1 },
        q_pack := { p.q_pack with
          buffer := p.q_pack.buffer
            ++ [{ o with status := .Packed, packed_time := p.now }],
          push_count := p.q_pack.push_count + 1,
          max_size := max p.q_pack.max_size (p.q_pack.buffer.length + 1) },
        packed_count := p.packed_count + 1 } := by
  cases hb : p.q_prepare.buffer with
  | nil => exact Or.inl (by simp [Pipeline.packStepCore, BBQueue.pop, hb])
  | cons o rest =>
    cases hst : o.status with
    | Prepared =>
      by_cases hcl : p.q_pack.isClosed
      · exact Or.inl (by
          simp [Pipeline.packStepCore, BBQueue.pop, hb, Order.advance_to,
            hst, BBQueue.push, hcl])
      · by_cases hfull : p.q_pack.buffer.length < p.q_pack.capacity
        · refine Or.inr ⟨o, rest, rfl, hst, by simp [hcl], hfull, ?_⟩
          simp [Pipeline.packStepCore, BBQueue.pop, hb, Order.advance_to,
            hst, BBQueue.push, hcl, hfull]
        · exact Or.inl (by
            simp [Pipeline.packStepCore, BBQueue.pop, hb, Order.advance_to,
              hst, BBQueue.push, hcl, hfull])
    | Accepted => exact Or.inl (by
        simp [Pipeline.packStepCore, BBQueue.pop, hb, Order.advance_to, hst])
    | Packed => exact Or.inl (by
        simp [Pipeline.packStepCore, BBQueue.pop, hb, Order.advance_to, hst])
    | Delivered => exact Or.inl (by
        simp [Pipeline.packStepCore, BBQueue.pop, hb, Order.advance_to, hst])

theorem deliverStepCore_split (p : Pipeline) :
    p.deliverStepCore = p ∨
    ∃ o rest, p.q_pack.buffer = o :: rest ∧ o.status = OrderStatus.Packed ∧
      p.deliverStepCore = { p with
        q_pack := { p.q_pack with
          buffer := rest, pop_count := p.q_pack.pop_count + 1 },
        delivered := p.delivered
          ++ [{ o with status := .Delivered, delivered_time := p.now }],
        delivered_count := p.delivered_count + 1,
        total_lead_time := p.total_lead_time
          + ({ o with status := .Delivered, delivered_time := p.now} : Order).leadTime } := by
  cases hb : p.q_pack.buffer with
  | nil => exact Or.inl (by simp [Pipeline.deliverStepCore, BBQueue.pop, hb])
  | cons o rest =>
    cases hst : o.status with
    | Packed =>
      refine Or.inr ⟨o, rest, rfl, hst, ?_⟩
      simp [Pipeline.deliverStepCore, BBQueue.pop, hb, Order.advance_to, hst]
    | Accepted => exact Or.inl (by
        simp [Pipeline.deliverStepCore, BBQueue.pop, hb, Order.advance_to, hst])
    | Prepared => exact Or.inl (by
        simp [Pipeline.deliverStepCore, BBQueue.pop, hb, Order.advance_to, hst])
    | Delivered => exact Or.inl (by
        simp [Pipeline.deliverStepCore, BBQueue.pop, hb, Order.advance_to, hst])

theorem inv_prepareStepCore (p : Pipeline) (h : PipelineInv p) :
    PipelineInv p.prepareStepCore := by
  rcases prepareStepCore_split p with heq | ⟨o, rest, hb, hst, hcl, hfull, heq⟩
  · rw [heq]
    exact h
  · obtain ⟨hin, hprep, hpack, hacc, hpc1, hpc2, hkc1, hkc2, hdc1, hdc2,
      hsin, hsprep, hspack, hlead⟩ := h
    have ho := hsin o (by rw [hb]; exact List.mem_cons_self o rest)
    rw [hb] at hin
    rw [heq]
    refine ⟨?_, ?_, ?_, ?_, ?_, ?_, ?_, ?_, ?_, ?_, ?_, ?_, ?_, ?_⟩ <;>
      simp only []
    · simp at hin ⊢
      omega
    · simp at hprep ⊢
      omega
    · simpa using hpack
    · simpa using hacc
    · omega
    · omega
    · simpa using hkc1
    · simpa using hkc2
    · simpa using hdc1
    · simpa using hdc2
    · intro o2 h2
      exact hsin o2 (by rw [hb]; exact List.mem_cons_of_mem o h2)
    · intro o2 h2
      simp at h2
      rcases h2 with h2 | h2
      · exact hsprep o2 h2
      · subst h2
        exact ⟨rfl, ho.2⟩
    · intro o2 h2
      exact hspack o2 h2
    · simpa using hlead

theorem inv_packStepCore (p : Pipeline) (h : PipelineInv p) :
    PipelineInv p.packStepCore := by
  rcases packStepCore_split p with heq | ⟨o, rest, hb, hst, hcl, hfull, heq⟩
  · rw [heq]
    exact h
  · obtain ⟨hin, hprep, hpack, hacc, hpc1, hpc2, hkc1, hkc2, hdc1, hdc2,
      hsin, hsprep, hspack, hlead⟩ := h
    have ho := hsprep o (by rw [hb]; exact List.mem_cons_self o rest)
    rw [hb] at hprep
    rw [heq]
    refine ⟨?_, ?_, ?_, ?_, ?_, ?_, ?_, ?_, ?_, ?_, ?_, ?_, ?_, ?_⟩ <;>
      simp only []
    · simpa using hin
    · simp at hprep ⊢
      omega
    · simp at hpack ⊢
      omega
    · simpa using hacc
    · simpa using hpc1
    · simpa using hpc2
    · omega
    · omega
    · simpa using hdc1
    · simpa using hdc2
    · intro o2 h2
      exact hsin o2 h2
    · intro o2 h2
      exact hsprep o2 (by rw [hb]; exact List.mem_cons_of_mem o h2)
    · intro o2 h2
      simp at h2
      rcases h2 with h2 | h2
      · exact hspack o2 h2
      · subst h2
        exact ⟨rfl, ho.2⟩
    · simpa using hlead

theorem inv_deliverStepCore (p : Pipeline) (h : PipelineInv p) :
    PipelineInv p.deliverStepCore := by
  rcases deliverStepCore_split p with heq | ⟨o, rest, hb, hst, heq⟩
  · rw [heq]
    exact h
  · obtain ⟨hin, hprep, hpack, hacc, hpc1, hpc2, hkc1, hkc2, hdc1, hdc2,
      hsin, hsprep, hspack, hlead⟩ := h
    rw [hb] at hpack
    rw [heq]
    refine ⟨?_, ?_, ?_, ?_, ?_, ?_, ?_, ?_, ?_, ?_, ?_, ?_, ?_, ?_⟩ <;>
      simp only []
    · simpa using hin
    · simpa using hprep
    · simp at hpack ⊢
      omega
    · simpa using hacc
    · simpa using hpc1
    · simpa using hpc2
    · simpa using hkc1
    · simpa using hkc2
    · omega
    · simp only [List.length_append, List.length_cons, List.length_nil]
      omega
    · intro o2 h2
      exact hsin o2 h2
    · intro o2 h2
      exact hsprep o2 h2
    · intro o2 h2
      exact hspack o2 (by rw [hb]; exact List.mem_cons_of_mem o h2)
    · simp [sumLeadTime, hlead]

theorem inv_of_eq (p q : Pipeline) (h : PipelineInv p)
    (hib : q.q_in.buffer = p.q_in.buffer)
    (hiu : q.q_in.push_count = p.q_in.push_count)
    (hio : q.q_in.pop_count = p.q_in.pop_count)
    (hpb : q.q_prepare.buffer = p.q_prepare.buffer)
    (hpu : q.q_prepare.push_count = p.q_prepare.push_count)
    (hpo : q.q_prepare.pop_count = p.q_prepare.pop_count)
    (hkb : q.q_pack.buffer = p.q_pack.buffer)
    (hku : q.q_pack.push_count = p.q_pack.push_count)
    (hko : q.q_pack.pop_count = p.q_pack.pop_count)
    (ha : q.accepted_count = p.accepted_count)
    (hp2 : q.prepared_count = p.prepared_count)
    (hk2 : q.packed_count = p.packed_count)
    (hd2 : q.delivered_count = p.delivered_count)
    (hdl : q.delivered = p.delivered)
    (htl : q.total_lead_time = p.total_lead_time)
    (hnw : p.now ≤ q.now) :
    PipelineInv q := by
  obtain ⟨hin, hprep, hpack, hacc, hpc1, hpc2, hkc1, hkc2, hdc1, hdc2,
    hsin, hsprep, hspack, hlead⟩ := h
  refine ⟨?_, ?_, ?_, ?_, ?_, ?_, ?_, ?_, ?_, ?_, ?_, ?_, ?_, ?_⟩
  · rw [hib, hiu, hio]
    exact hin
  · rw [hpb, hpu, hpo]
    exact hprep
  · rw [hkb, hku, hko]
    exact hpack
  · rw [ha, hiu]
    exact hacc
  · rw [hp2, hio]
    exact hpc1
  · rw [hp2, hpu]
    exact hpc2
  · rw [hk2, hpo]
    exact hkc1
  · rw [hk2, hku]
    exact hkc2
  · rw [hd2, hko]
    exact hdc1
  · rw [hd2, hdl]
    exact hdc2
  · intro o2 h2
    rw [hib] at h2
    exact ⟨(hsin o2 h2).1, le_trans (hsin o2 h2).2 hnw⟩
  · intro o2 h2
    rw [hpb] at h2
    exact ⟨(hsprep o2 h2).1, le_trans (hsprep o2 h2).2 hnw⟩
  · intro o2 h2
    rw [hkb] at h2
    exact ⟨(hspack o2 h2).1, le_trans (hspack o2 h2).2 hnw⟩
  · rw [htl, hdl]
    exact hlead

theorem inv_init (cfg : Config) : PipelineInv (Pipeline.init cfg) := by
  constructor <;> simp [Pipeline.init, BBQueue.init, sumLeadTime]

theorem inv_submit (p : Pipeline) (oid : Nat) (h : PipelineInv p) :
    PipelineInv (p.submit oid).2 := by
  rw [Pipeline.submit]
  by_cases hs : p.state = .Running
  · by_cases hcl : p.q_in.isClosed
    · simp [hs, BBQueue.push, hcl]
      exact h
    · by_cases hfull : p.q_in.buffer.length < p.q_in.capacity
      · simp [hs, BBQueue.push, hcl, hfull]
        obtain ⟨hin, hprep, hpack, hacc, hpc1, hpc2, hkc1, hkc2, hdc1, hdc2,
          hsin, hsprep, hspack, hlead⟩ := h
        refine ⟨?_, ?_, ?_, ?_, ?_, ?_, ?_, ?_, ?_, ?_, ?_, ?_, ?_, ?_⟩ <;>
          try simpa
        · simp only [List.length_append, List.length_cons, List.length_nil]
          omega
        · intro o2 h2
          simp at h2
          rcases h2 with h2 | h2
          · exact hsin o2 h2
          · subst h2
            exact ⟨rfl, le_refl _⟩
      · simp [hs, BBQueue.push, hcl, hfull]
        exact inv_of_eq p _ h rfl rfl rfl rfl rfl rfl rfl rfl rfl rfl rfl rfl
          rfl rfl rfl (le_refl _)
  · simp [hs]
    exact h

theorem inv_drainStep (p : Pipeline) (h : PipelineInv p) :
    PipelineInv p.drainStep := by
  rw [Pipeline.drainStep]
  by_cases h1 : p.q_pack.size ≠ 0
  · simp [h1]
    exact inv_deliverStepCore p h
  · by_cases h2 : p.q_prepare.size ≠ 0
    · simp [h1, h2]
      exact inv_packStepCore p h
    · simp [h1, h2]
      exact inv_prepareStepCore p h

theorem inv_drainFuel (n : Nat) (p : Pipeline) (h : PipelineInv p) :
    PipelineInv (Pipeline.drainFuel n p) := by
  induction n generalizing p with
  | zero => exact h
  | succ m ih =>
    rw [Pipeline.drainFuel]
    by_cases hz : p.drainMeasure = 0
    · simp [hz]
      exact h
    · simp [hz]
      exact ih p.drainStep (inv_drainStep p h)

theorem inv_shutdown (p : Pipeline) (h : PipelineInv p) :
    PipelineInv p.shutdown := by
  rw [Pipeline.shutdown]
  by_cases hs : p.state = .Stopped
  · simp [hs]
    exact h
  · simp [hs]
    have h1 : PipelineInv { p with state := .Stopping, q_in := p.q_in.close } :=
      inv_of_eq p _ h (by simp [BBQueue.close]) (by simp [BBQueue.close])
        (by simp [BBQueue.close]) rfl rfl rfl rfl rfl rfl rfl rfl rfl rfl rfl
        rfl (le_refl _)
    have h2 : PipelineInv (Pipeline.drainFuel
        (Pipeline.drainMeasure { p with
          state := PipelineState.Stopping,
          q_in := p.q_in.close })
        { p with
          state := PipelineState.Stopping,
          q_in := p.q_in.close }) :=
      inv_drainFuel _ _ h1
    exact inv_of_eq _ _ h2 rfl rfl rfl (by simp [BBQueue.close])
      (by simp [BBQueue.close]) (by simp [BBQueue.close]) (by simp [BBQueue.close])
      (by simp [BBQueue.close]) (by simp [BBQueue.close]) rfl rfl rfl rfl rfl
      rfl (le_refl _)

theorem inv_shutdown_now (p : Pipeline) (h : PipelineInv p) :
    PipelineInv p.shutdown_now := by
  rw [Pipeline.shutdown_now]
  by_cases hs : p.state = .Stopped
  · simp [hs]
    exact h
  · simp [hs]
    exact inv_of_eq p _ h (by simp [BBQueue.close]) (by simp [BBQueue.close])
      (by simp [BBQueue.close]) (by simp [BBQueue.close]) (by simp [BBQueue.close])
      (by simp [BBQueue.close]) (by simp [BBQueue.close]) (by simp [BBQueue.close])
      (by simp [BBQueue.close]) rfl rfl rfl rfl rfl rfl (le_refl _)

theorem inv_applyOp (p : Pipeline) (op : Op) (h : PipelineInv p) :
    PipelineInv (p.applyOp op) := by
  cases op with
  | tick dt =>
    exact inv_of_eq p _ h rfl rfl rfl rfl rfl rfl rfl rfl rfl rfl rfl rfl rfl
      rfl rfl (Nat.le_add_right _ _)
  | start =>
    rw [Pipeline.applyOp, Pipeline.start]
    cases hs : p.state <;> simp <;>
      exact inv_of_eq p _ h rfl rfl rfl rfl rfl rfl rfl rfl rfl rfl rfl rfl rfl
        rfl rfl (le_refl _)
  | submit oid => exact inv_submit p oid h
  | prepare =>
    rw [Pipeline.applyOp, Pipeline.prepareStep]
    by_cases hs : p.state = .Running
    · simp [hs]
      exact inv_prepareStepCore p h
    · simp [hs]
      exact h
  | pack =>
    rw [Pipeline.applyOp, Pipeline.packStep]
    by_cases hs : p.state = .Running
    · simp [hs]
      exact inv_packStepCore p h
    · simp [hs]
      exact h
  | deliver =>
    rw [Pipeline.applyOp, Pipeline.deliverStep]
    by_cases hs : p.state = .Running
    · simp [hs]
      exact inv_deliverStepCore p h
    · simp [hs]
      exact h
  | shutdown => exact inv_shutdown p h
  | shutdownNow => exact inv_shutdown_now p h

theorem inv_foldl (ops : List Op) (p : Pipeline) (h : PipelineInv p) :
    PipelineInv (ops.foldl Pipeline.applyOp p) := by
  induction ops generalizing p with
  | nil => exact h
  | cons op rest ih => exact ih (p.applyOp op) (inv_applyOp p op h)

theorem inv_run (cfg : Config) (ops : List Op) :
    PipelineInv (Pipeline.run cfg ops) :=
  inv_foldl ops (Pipeline.init cfg) (inv_init cfg)

theorem mle_refl (m : Metrics) : m.le m := by simp [Metrics.le]

theorem mle_trans {a b c : Metrics} (h1 : a.le b) (h2 : b.le c) : a.le c := by
  simp only [Metrics.le] at h1 h2 ⊢
  omega

theorem mle_prepareStepCore (p : Pipeline) :
    Metrics.le p.metrics p.prepareStepCore.metrics := by
  rcases prepareStepCore_split p with heq | ⟨o, rest, hb, hst, hcl, hfull, heq⟩
  · rw [heq]
    exact mle_refl _
  · rw [heq]
    simp only [Pipeline.metrics, Metrics.le]
    refine ⟨?_, ?_, ?_, ?_, ?_, ?_, ?_, ?_, ?_, ?_, ?_, ?_, ?_, ?_, ?_, ?_,
      ?_, ?_⟩ <;>
      first
        | exact le_refl _
        | omega

theorem mle_packStepCore (p : Pipeline) :
    Metrics.le p.metrics p.packStepCore.metrics := by
  rcases packStepCore_split p with heq | ⟨o, rest, hb, hst, hcl, hfull, heq⟩
  · rw [heq]
    exact mle_refl _
  · rw [heq]
    simp only [Pipeline.metrics, Metrics.le]
    refine ⟨?_, ?_, ?_, ?_, ?_, ?_, ?_, ?_, ?_, ?_, ?_, ?_, ?_, ?_, ?_, ?_,
      ?_, ?_⟩ <;>
      first
        | exact le_refl _
        | omega

theorem mle_deliverStepCore (p : Pipeline) (h : PipelineInv p) :
    Metrics.le p.metrics p.deliverStepCore.metrics := by
  rcases deliverStepCore_split p with heq | ⟨o, rest, hb, hst, heq⟩
  · rw [heq]
    exact mle_refl _
  · have ho := h.hspack o (by rw [hb]; exact List.mem_cons_self o rest)
    have ho2 := ho.2
    rw [heq]
    simp only [Pipeline.metrics, Metrics.le, Order.leadTime]
    refine ⟨?_, ?_, ?_, ?_, ?_, ?_, ?_, ?_, ?_, ?_, ?_, ?_, ?_, ?_, ?_, ?_,
      ?_, ?_⟩ <;>
      first
        | exact le_refl _
        | omega

theorem mle_submit (p : Pipeline) (oid : Nat) :
    Metrics.le p.metrics (p.submit oid).2.metrics := by
  rw [Pipeline.submit]
  by_cases hs : p.state = .Running
  · by_cases hcl : p.q_in.isClosed
    · simp [hs, BBQueue.push, hcl]
      exact mle_refl _
    · by_cases hfull : p.q_in.buffer.length < p.q_in.capacity
      · simp only [hs, if_true, BBQueue.push, hcl]
        simp only [Bool.false_eq_true, if_false, hfull, if_true]
        simp only [Pipeline.metrics, Metrics.le]
        refine ⟨?_, ?_, ?_, ?_, ?_, ?_, ?_, ?_, ?_, ?_, ?_, ?_, ?_, ?_, ?_,
          ?_, ?_, ?_⟩ <;>
          first
            | exact le_refl _
            | omega
      · simp [hs, BBQueue.push, hcl, hfull]
        simp only [Pipeline.metrics, Metrics.le]
        refine ⟨?_, ?_, ?_, ?_, ?_, ?_, ?_, ?_, ?_, ?_, ?_, ?_, ?_, ?_, ?_,
          ?_, ?_, ?_⟩ <;>
          first
            | exact le_refl _
            | omega
  · simp [hs]
    exact mle_refl _

theorem mle_drainStep (p : Pipeline) (h : PipelineInv p) :
    Metrics.le p.metrics p.drainStep.metrics := by
  rw [Pipeline.drainStep]
  by_cases h1 : p.q_pack.size ≠ 0
  · simp [h1]
    exact mle_deliverStepCore p h
  · by_cases h2 : p.q_prepare.size ≠ 0
    · simp [h1, h2]
      exact mle_packStepCore p
    · simp [h1, h2]
      exact mle_prepareStepCore p

theorem mle_drainFuel (n : Nat) (p : Pipeline) (h : PipelineInv p) :
    Metrics.le p.metrics (Pipeline.drainFuel n p).metrics := by
  induction n generalizing p with
  | zero => exact mle_refl _
  | succ m ih =>
    rw [Pipeline.drainFuel]
    by_cases hz : p.drainMeasure = 0
    · simp [hz]
      exact mle_refl _
    · simp [hz]
      exact mle_trans (mle_drainStep p h) (ih p.drainStep (inv_drainStep p h))

theorem submit_frame (p : Pipeline) (oid : Nat) :
    (p.submit oid).2.state = p.state ∧
    (p.submit oid).2.prepare_workers_used = p.prepare_workers_used ∧
    (p.submit oid).2.pack_workers_used = p.pack_workers_used ∧
    (p.submit oid).2.deliver_workers_used = p.deliver_workers_used := by
  rw [Pipeline.submit]
  by_cases hs : p.state = .Running
  · by_cases hcl : p.q_in.isClosed
    · simp [hs, BBQueue.push, hcl]
    · by_cases hfull : p.q_in.buffer.length < p.q_in.capacity
      · simp [hs, BBQueue.push, hcl, hfull]
      · simp [hs, BBQueue.push, hcl, hfull]
  · simp [hs]

theorem prepareStepCore_frame (p : Pipeline) :
    p.prepareStepCore.state = p.state ∧
    p.prepareStepCore.prepare_workers_used = p.prepare_workers_used ∧
    p.prepareStepCore.pack_workers_used = p.pack_workers_used ∧
    p.prepareStepCore.deliver_workers_used = p.deliver_workers_used := by
  rcases prepareStepCore_split p with heq | ⟨o, rest, hb, hst, hcl, hfull, heq⟩ <;>
    rw [heq] <;> simp

theorem packStepCore_frame (p : Pipeline) :
    p.packStepCore.state = p.state ∧
    p.packStepCore.prepare_workers_used = p.prepare_workers_used ∧
    p.packStepCore.pack_workers_used = p.pack_workers_used ∧
    p.packStepCore.deliver_workers_used = p.deliver_workers_used := by
  rcases packStepCore_split p with heq | ⟨o, rest, hb, hst, hcl, hfull, heq⟩ <;>
    rw [heq] <;> simp

theorem deliverStepCore_frame (p : Pipeline) :
    p.deliverStepCore.state = p.state ∧
    p.deliverStepCore.prepare_workers_used = p.prepare_workers_used ∧
    p.deliverStepCore.pack_workers_used = p.pack_workers_used ∧
    p.deliverStepCore.deliver_workers_used = p.deliver_workers_used := by
  rcases deliverStepCore_split p with heq | ⟨o, rest, hb, hst, heq⟩ <;>
    rw [heq] <;> simp

theorem ws_applyOp (p : Pipeline) (op : Op) (h : WorkersInit p) :
    WorkersInit (p.applyOp op) := by
  cases op with
  | tick dt =>
    intro hs
    exact h hs
  | start =>
    rw [Pipeline.applyOp, Pipeline.start]
    cases hst : p.state with
    | Created =>
      simp
      intro hs
      simp at hs
    | Running =>
      simp
      intro hs
      exact h hs
    | Stopping =>
      simp
      intro hs
      exact h hs
    | Stopped =>
      simp
      intro hs
      exact h hs
  | submit oid =>
    have hf := submit_frame p oid
    intro hs
    rw [Pipeline.applyOp] at hs ⊢
    rw [hf.1] at hs
    rw [hf.2.1, hf.2.2.1, hf.2.2.2]
    exact h hs
  | prepare =>
    rw [Pipeline.applyOp, Pipeline.prepareStep]
    by_cases hs : p.state = .Running
    · simp [hs]
      have hf := prepareStepCore_frame p
      intro hc
      rw [hf.1] at hc
      rw [hf.2.1, hf.2.2.1, hf.2.2.2]
      exact h hc
    · simp [hs]
      exact h
  | pack =>
    rw [Pipeline.applyOp, Pipeline.packStep]
    by_cases hs : p.state = .Running
    · simp [hs]
      have hf := packStepCore_frame p
      intro hc
      rw [hf.1] at hc
      rw [hf.2.1, hf.2.2.1, hf.2.2.2]
      exact h hc
    · simp [hs]
      exact h
  | deliver =>
    rw [Pipeline.applyOp, Pipeline.deliverStep]
    by_cases hs : p.state = .Running
    · simp [hs]
      have hf := deliverStepCore_frame p
      intro hc
      rw [hf.1] at hc
      rw [hf.2.1, hf.2.2.1, hf.2.2.2]
      exact h hc
    · simp [hs]
      exact h
  | shutdown =>
    rw [Pipeline.applyOp, Pipeline.shutdown]
    by_cases hs : p.state = .Stopped
    · simp [hs]
      intro hc
      rw [hs] at hc
      simp at hc
    · simp [hs]
      intro hc
      simp at hc
  | shutdownNow =>
    rw [Pipeline.applyOp, Pipeline.shutdown_now]
    by_cases hs : p.state = .Stopped
    · simp [hs]
      intro hc
      rw [hs] at hc
      simp at hc
    · simp [hs]
      intro hc
      simp at hc

theorem mle_applyOp (p : Pipeline) (op : Op) (hi : PipelineInv p)
    (hw : WorkersInit p) : Metrics.le p.metrics (p.applyOp op).metrics := by
  cases op with
  | tick dt => exact mle_refl _
  | start =>
    rw [Pipeline.applyOp, Pipeline.start]
    cases hst : p.state with
    | Created =>
      obtain ⟨w1, w2, w3⟩ := hw hst
      simp only [Pipeline.metrics, Metrics.le]
      simp
      refine ⟨?_, ?_, ?_⟩ <;> omega
    | Running =>
      simp
      exact mle_refl _
    | Stopping =>
      simp
      exact mle_refl _
    | Stopped =>
      simp
      exact mle_refl _
  | submit oid => exact mle_submit p oid
  | prepare =>
    rw [Pipeline.applyOp, Pipeline.prepareStep]
    by_cases hs : p.state = .Running
    · simp [hs]
      exact mle_prepareStepCore p
    · simp [hs]
      exact mle_refl _
  | pack =>
    rw [Pipeline.applyOp, Pipeline.packStep]
    by_cases hs : p.state = .Running
    · simp [hs]
      exact mle_packStepCore p
    · simp [hs]
      exact mle_refl _
  | deliver =>
    rw [Pipeline.applyOp, Pipeline.deliverStep]
    by_cases hs : p.state = .Running
    · simp [hs]
      exact mle_deliverStepCore p hi
    · simp [hs]
      exact mle_refl _
  | shutdown =>
    rw [Pipeline.applyOp, Pipeline.shutdown]
    by_cases hs : p.state = .Stopped
    · simp [hs]
      exact mle_refl _
    · simp [hs]
      have h1 : PipelineInv { p with state := .Stopping, q_in := p.q_in.close } :=
        inv_of_eq p _ hi (by simp [BBQueue.close]) (by simp [BBQueue.close])
          (by simp [BBQueue.close]) rfl rfl rfl rfl rfl rfl rfl rfl rfl rfl rfl
          rfl (le_refl _)
      exact mle_drainFuel _ _ h1
  | shutdownNow =>
    rw [Pipeline.applyOp, Pipeline.shutdown_now]
    by_cases hs : p.state = .Stopped
    · simp [hs]
      exact mle_refl _
    · simp [hs]
      exact mle_refl _

theorem ws_foldl (ops : List Op) (p : Pipeline) (h : WorkersInit p) :
    WorkersInit (ops.foldl Pipeline.applyOp p) := by
  induction ops generalizing p with
  | nil => exact h
  | cons op rest ih => exact ih (p.applyOp op) (ws_applyOp p op h)

theorem mle_foldl (ops : List Op) (p : Pipeline) (hi : PipelineInv p)
    (hw : WorkersInit p) :
    Metrics.le p.metrics ((ops.foldl Pipeline.applyOp p).metrics) := by
  induction ops generalizing p with
  | nil => exact mle_refl _
  | cons op rest ih =>
    exact mle_trans (mle_applyOp p op hi hw)
      (ih (p.applyOp op) (inv_applyOp p op hi) (ws_applyOp p op hw))

theorem ws_init (cfg : Config) : WorkersInit (Pipeline.init cfg) := by
  intro hs
  simp [Pipeline.init]

theorem chain_of_inv (p : Pipeline) (h : PipelineInv p) :
    p.metrics.chainOk := by
  obtain ⟨hin, hprep, hpack, hacc, hpc1, hpc2, hkc1, hkc2, hdc1, hdc2,
    hsin, hsprep, hspack, hlead⟩ := h
  simp only [Metrics.chainOk, Pipeline.metrics]
  refine ⟨?_, ?_, ?_⟩ <;> omega

/-- Claim C4: every metrics snapshot of any reachable pipeline state
satisfies the stage chain delivered_count at most packed_count at most
prepared_count at most accepted_count, and a later snapshot of the same run
dominates an earlier one in every counter. -/
theorem metrics_chain_and_monotone (cfg : Config) (ops more : List Op) :
    (Pipeline.run cfg ops).metrics.chainOk ∧
    Metrics.le (Pipeline.run cfg ops).metrics
      (Pipeline.run cfg (ops ++ more)).metrics := by
  have hi := inv_run cfg ops
  refine ⟨chain_of_inv _ hi, ?_⟩
  have hw : WorkersInit (Pipeline.run cfg ops) :=
    ws_foldl ops (Pipeline.init cfg) (ws_init cfg)
  have happ : Pipeline.run cfg (ops ++ more)
      = more.foldl Pipeline.applyOp (Pipeline.run cfg ops) := by
    rw [Pipeline.run, Pipeline.run, List.foldl_append]
  rw [happ]
  exact mle_foldl more _ hi hw

/-- Claim C7: in every reachable pipeline state, and in particular when
processing has completed after shutdown, the total_lead_time metric equals
the sum over the delivered store of delivered_time minus accepted_time
(nanosecond durations). -/
theorem total_lead_time_sums (cfg : Config) (ops : List Op) :
    (Pipeline.run cfg ops).metrics.total_lead_time
      = sumLeadTime (Pipeline.run cfg ops).delivered_orders :=
  (inv_run cfg ops).hlead

theorem deliverStepCore_ok (p : Pipeline) (o : Order) (rest : List Order)
    (hb : p.q_pack.buffer = o :: rest) (hst : o.status = OrderStatus.Packed) :
    p.deliverStepCore = { p with
      q_pack := { p.q_pack with
        buffer := rest, pop_count := p.q_pack.pop_count + 1 },
      delivered := p.delivered
        ++ [{ o with status := .Delivered, delivered_time := p.now }],
      delivered_count := p.delivered_count + 1,
      total_lead_time := p.total_lead_time
        + ({ o with status := .Delivered, delivered_time := p.now } : Order).leadTime } := by
  simp [Pipeline.deliverStepCore, BBQueue.pop, hb, Order.advance_to, hst]

theorem packStepCore_ok (p : Pipeline) (o : Order) (rest : List Order)
    (hb : p.q_prepare.buffer = o :: rest) (hst : o.status = OrderStatus.Prepared)
    (hcl : p.q_pack.isClosed = false)
    (hfull : p.q_pack.buffer.length < p.q_pack.capacity) :
    p.packStepCore = { p with
      q_prepare := { p.q_prepare with
        buffer := rest, pop_count := p.q_prepare.pop_count + 1 },
      q_pack := { p.q_pack with
        buffer := p.q_pack.buffer
          ++ [{ o with status := .Packed, packed_time := p.now }],
        push_count := p.q_pack.push_count + 1,
        max_size := max p.q_pack.max_size (p.q_pack.buffer.length + 1) },
      packed_count := p.packed_count + 1 } := by
  simp [Pipeline.packStepCore, BBQueue.pop, hb, Order.advance_to, hst,
    BBQueue.push, hcl, hfull]

theorem prepareStepCore_ok (p : Pipeline) (o : Order) (rest : List Order)
    (hb : p.q_in.buffer = o :: rest) (hst : o.status = OrderStatus.Accepted)
    (hcl : p.q_prepare.isClosed = false)
    (hfull : p.q_prepare.buffer.length < p.q_prepare.capacity) :
    p.prepareStepCore = { p with
      q_in := { p.q_in with
        buffer := rest, pop_count := p.q_in.pop_count + 1 },
      q_prepare := { p.q_prepare with
        buffer := p.q_prepare.buffer
          ++ [{ o with status := .Prepared, prepared_time := p.now }],
        push_count := p.q_prepare.push_count + 1,
        max_size := max p.q_prepare.max_size (p.q_prepare.buffer.length + 1) },
      prepared_count := p.prepared_count + 1 } := by
  simp [Pipeline.prepareStepCore, BBQueue.pop, hb, Order.advance_to, hst,
    BBQueue.push, hcl, hfull]

theorem drainStep_progress (p : Pipeline) (hi : PipelineInv p)
    (hpo : p.q_prepare.isClosed = false) (hko : p.q_pack.isClosed = false)
    (hpc : 1 ≤ p.q_prepare.capacity) (hkc : 1 ≤ p.q_pack.capacity)
    (hnz : p.drainMeasure ≠ 0) :
    p.drainStep.drainMeasure + 1 = p.drainMeasure ∧
    p.drainStep.q_prepare.isClosed = false ∧
    p.drainStep.q_pack.isClosed = false ∧
    p.drainStep.q_prepare.capacity = p.q_prepare.capacity ∧
    p.drainStep.q_pack.capacity = p.q_pack.capacity ∧
    p.drainStep.accepted_count = p.accepted_count ∧
    p.drainStep.q_in.push_count = p.q_in.push_count ∧
    p.drainStep.flowIds = p.flowIds := by
  rw [Pipeline.drainStep]
  by_cases h1 : p.q_pack.size ≠ 0
  · rw [if_pos h1]
    cases hb : p.q_pack.buffer with
    | nil =>
      rw [BBQueue.size, hb] at h1
      simp at h1
    | cons o rest =>
      have hst := (hi.hspack o (by rw [hb]; exact List.mem_cons_self o rest)).1
      rw [deliverStepCore_ok p o rest hb hst]
      refine ⟨?_, by simp [hpo], by simp [hko], by simp, by simp, by simp,
        by simp, ?_⟩
      · simp [Pipeline.drainMeasure, BBQueue.size, hb]
        omega
      · simp [Pipeline.flowIds, hb]
  · rw [if_neg h1]
    by_cases h2 : p.q_prepare.size ≠ 0
    · rw [if_pos h2]
      have hkb : p.q_pack.buffer = [] := by
        rw [BBQueue.size] at h1
        simpa using List.length_eq_zero.mp (by omega)
      cases hb : p.q_prepare.buffer with
      | nil =>
        rw [BBQueue.size, hb] at h2
        simp at h2
      | cons o rest =>
        have hst := (hi.hsprep o (by rw [hb]; exact List.mem_cons_self o rest)).1
        have hfull : p.q_pack.buffer.length < p.q_pack.capacity := by
          rw [hkb]
          simpa using hkc
        rw [packStepCore_ok p o rest hb hst hko hfull]
        refine ⟨?_, by simp [hpo], by simp [hko], by simp, by simp, by simp,
          by simp, ?_⟩
        · simp [Pipeline.drainMeasure, BBQueue.size, hb, hkb]
          omega
        · simp [Pipeline.flowIds, hb, hkb]
    · rw [if_neg h2]
      have hkb : p.q_pack.buffer = [] := by
        rw [BBQueue.size] at h1
        simpa using List.length_eq_zero.mp (by omega)
      have hpb : p.q_prepare.buffer = [] := by
        rw [BBQueue.size] at h2
        simpa using List.length_eq_zero.mp (by omega)
      cases hb : p.q_in.buffer with
      | nil =>
        rw [Pipeline.drainMeasure, BBQueue.size, BBQueue.size, BBQueue.size,
          hb, hkb, hpb] at hnz
        simp at hnz
      | cons o rest =>
        have hst := (hi.hsin o (by rw [hb]; exact List.mem_cons_self o rest)).1
        have hfull : p.q_prepare.buffer.length < p.q_prepare.capacity := by
          rw [hpb]
          simpa using hpc
        rw [prepareStepCore_ok p o rest hb hst hpo hfull]
        refine ⟨?_, by simp [hpo], by simp [hko], by simp, by simp, by simp,
          by simp, ?_⟩
        · simp [Pipeline.drainMeasure, BBQueue.size, hb, hpb]
          omega
        · simp [Pipeline.flowIds, hb, hpb, hkb]

theorem drain_empties (n : Nat) : ∀ p : Pipeline, p.drainMeasure = n →
    PipelineInv p → p.q_prepare.isClosed = false → p.q_pack.isClosed = false →
    1 ≤ p.q_prepare.capacity → 1 ≤ p.q_pack.capacity →
    (Pipeline.drainFuel n p).q_in.buffer = [] ∧
    (Pipeline.drainFuel n p).q_prepare.buffer = [] ∧
    (Pipeline.drainFuel n p).q_pack.buffer = [] ∧
    (Pipeline.drainFuel n p).accepted_count = p.accepted_count ∧
    (Pipeline.drainFuel n p).q_in.push_count = p.q_in.push_count ∧
    (Pipeline.drainFuel n p).flowIds = p.flowIds := by
  induction n with
  | zero =>
    intro p hm hi hpo hko hpc hkc
    rw [Pipeline.drainMeasure, BBQueue.size, BBQueue.size, BBQueue.size] at hm
    simp only [Pipeline.drainFuel]
    exact ⟨List.length_eq_zero.mp (by omega), List.length_eq_zero.mp (by omega),
      List.length_eq_zero.mp (by omega), trivial, trivial, trivial⟩
  | succ m ih =>
    intro p hm hi hpo hko hpc hkc
    rw [Pipeline.drainFuel]
    have hnz : p.drainMeasure ≠ 0 := by omega
    rw [if_neg hnz]
    have hp := drainStep_progress p hi hpo hko hpc hkc hnz
    have hm' : p.drainStep.drainMeasure = m := by omega
    have h := ih p.drainStep hm' (inv_drainStep p hi) hp.2.1 hp.2.2.1
      (by rw [hp.2.2.2.1]; exact hpc) (by rw [hp.2.2.2.2.1]; exact hkc)
    refine ⟨h.1, h.2.1, h.2.2.1, ?_, ?_, ?_⟩
    · rw [h.2.2.2.1, hp.2.2.2.2.2.1]
    · rw [h.2.2.2.2.1, hp.2.2.2.2.2.2.1]
    · rw [h.2.2.2.2.2, hp.2.2.2.2.2.2.2]

theorem submitAll_spec (ids : List Nat) : ∀ p : Pipeline,
    p.state = PipelineState.Running →
    (p.submitAll ids).1.state = PipelineState.Running ∧
    (p.submitAll ids).1.config = p.config ∧
    (p.submitAll ids).1.now = p.now ∧
    (p.submitAll ids).1.q_prepare = p.q_prepare ∧
    (p.submitAll ids).1.q_pack = p.q_pack ∧
    (p.submitAll ids).1.delivered = p.delivered ∧
    (p.submitAll ids).1.prepared_count = p.prepared_count ∧
    (p.submitAll ids).1.packed_count = p.packed_count ∧
    (p.submitAll ids).1.delivered_count = p.delivered_count ∧
    (p.submitAll ids).1.total_lead_time = p.total_lead_time ∧
    (p.submitAll ids).1.q_in.capacity = p.q_in.capacity ∧
    (p.submitAll ids).1.q_in.isClosed = p.q_in.isClosed ∧
    (p.submitAll ids).1.q_in.pop_count = p.q_in.pop_count ∧
    (p.submitAll ids).1.q_in.push_count
      = p.q_in.push_count + (successIds ids (p.submitAll ids).2).length ∧
    (p.submitAll ids).1.accepted_count
      = p.accepted_count + (successIds ids (p.submitAll ids).2).length ∧
    (p.submitAll ids).1.q_in.buffer.map Order.id
      = p.q_in.buffer.map Order.id ++ successIds ids (p.submitAll ids).2 := by
  induction ids with
  | nil =>
    intro p hst
    simp [Pipeline.submitAll, successIds, hst]
  | cons oid rest ih =>
    intro p hst
    by_cases hcl : p.q_in.isClosed
    · have hsub : p.submit oid = (false, p) := by
        simp [Pipeline.submit, hst, BBQueue.push, hcl]
      have h := ih p hst
      simp only [Pipeline.submitAll, hsub]
      simp only [successIds, if_false, Bool.false_eq_true]
      exact h
    · by_cases hfull : p.q_in.buffer.length < p.q_in.capacity
      · have hsub : p.submit oid
            = (true, { p with
                q_in := { p.q_in with
                  buffer := p.q_in.buffer ++ [Order.fresh oid p.now],
                  push_count := p.q_in.push_count + 1,
                  max_size := max p.q_in.max_size (p.q_in.buffer.length + 1) },
                accepted_count := p.accepted_count + 1 }) := by
          simp [Pipeline.submit, hst, BBQueue.push, hcl, hfull]
        have h := ih { p with
            q_in := { p.q_in with
              buffer := p.q_in.buffer ++ [Order.fresh oid p.now],
              push_count := p.q_in.push_count + 1,
              max_size := max p.q_in.max_size (p.q_in.buffer.length + 1) },
            accepted_count := p.accepted_count + 1 } hst
        simp only [Pipeline.submitAll, hsub]
        simp only [successIds, if_true]
        simp only at h
        refine ⟨h.1, h.2.1, h.2.2.1, h.2.2.2.1, h.2.2.2.2.1, h.2.2.2.2.2.1,
          h.2.2.2.2.2.2.1, h.2.2.2.2.2.2.2.1, h.2.2.2.2.2.2.2.2.1,
          h.2.2.2.2.2.2.2.2.2.1, h.2.2.2.2.2.2.2.2.2.2.1,
          h.2.2.2.2.2.2.2.2.2.2.2.1, h.2.2.2.2.2.2.2.2.2.2.2.2.1, ?_, ?_, ?_⟩
        · rw [h.2.2.2.2.2.2.2.2.2.2.2.2.2.1]
          simp only [List.length_cons]
          omega
        · rw [h.2.2.2.2.2.2.2.2.2.2.2.2.2.2.1]
          simp only [List.length_cons]
          omega
        · rw [h.2.2.2.2.2.2.2.2.2.2.2.2.2.2.2]
          simp [Order.fresh]
      · have hsub : p.submit oid
            = (false, { p with
                submit_timeout_count := p.submit_timeout_count + 1 }) := by
          simp [Pipeline.submit, hst, BBQueue.push, hcl, hfull]
        have h := ih { p with
            submit_timeout_count := p.submit_timeout_count + 1 } hst
        simp only [Pipeline.submitAll, hsub]
        simp only [successIds, if_false, Bool.false_eq_true]
        simp only at h
        exact h

theorem inv_submitAll (ids : List Nat) : ∀ p : Pipeline, PipelineInv p →
    PipelineInv (p.submitAll ids).1 := by
  induction ids with
  | nil =>
    intro p h
    exact h
  | cons oid rest ih =>
    intro p h
    simp only [Pipeline.submitAll]
    exact ih _ (inv_submit p oid h)

theorem shutdown_drains (p : Pipeline) (hst : p.state = PipelineState.Running)
    (hi : PipelineInv p)
    (hpo : p.q_prepare.isClosed = false) (hko : p.q_pack.isClosed = false)
    (hpc : 1 ≤ p.q_prepare.capacity) (hkc : 1 ≤ p.q_pack.capacity) :
    p.shutdown.q_in.buffer = [] ∧
    p.shutdown.q_prepare.buffer = [] ∧
    p.shutdown.q_pack.buffer = [] ∧
    p.shutdown.accepted_count = p.accepted_count ∧
    p.shutdown.q_in.push_count = p.q_in.push_count ∧
    p.shutdown.delivered.map Order.id = p.flowIds := by
  have hns : ¬ p.state = PipelineState.Stopped := by
    rw [hst]
    simp
  rw [Pipeline.shutdown, if_neg hns]
  dsimp only
  set pm : Pipeline := { p with
    state := PipelineState.Stopping,
    q_in := p.q_in.close } with hpm
  have hinvpm : PipelineInv pm :=
    inv_of_eq p pm hi (by simp [hpm, BBQueue.close]) (by simp [hpm, BBQueue.close])
      (by simp [hpm, BBQueue.close]) (by simp [hpm]) (by simp [hpm])
      (by simp [hpm]) (by simp [hpm]) (by simp [hpm]) (by simp [hpm])
      (by simp [hpm]) (by simp [hpm]) (by simp [hpm]) (by simp [hpm])
      (by simp [hpm]) (by simp [hpm]) (by simp [hpm])
  have key := drain_empties pm.drainMeasure pm rfl hinvpm
    (by simp [hpm]; exact hpo) (by simp [hpm]; exact hko)
    (by simp [hpm]; exact hpc) (by simp [hpm]; exact hkc)
  refine ⟨?_, ?_, ?_, ?_, ?_, ?_⟩
  · simpa using key.1
  · simpa [BBQueue.close] using key.2.1
  · simpa [BBQueue.close] using key.2.2.1
  · have := key.2.2.2.1
    simp [hpm] at this
    simpa using this
  · have := key.2.2.2.2.1
    simp [hpm, BBQueue.close] at this
    simpa using this
  · have hfl := key.2.2.2.2.2
    have hempty : (Pipeline.drainFuel pm.drainMeasure pm).flowIds
        = (Pipeline.drainFuel pm.drainMeasure pm).delivered.map Order.id := by
      simp [Pipeline.flowIds, key.1, key.2.1, key.2.2.1]
    have hpmflow : pm.flowIds = p.flowIds := by
      simp [Pipeline.flowIds, hpm, BBQueue.close]
    rw [hempty, hpmflow] at hfl
    simpa using hfl

/-- Claim C1: in the scenario start, submit a batch, graceful shutdown, let
K be the number of submits that returned true: every one of those K orders
is in the delivered store when shutdown returns, the four stage counters
all equal K, and each of the three queues has push and pop counters equal
to K. -/
theorem graceful_shutdown_drains_all (cfg : Config)
    (hp : 1 ≤ cfg.q_prepare_capacity) (hk : 1 ≤ cfg.q_pack_capacity)
    (ids : List Nat) :
    (∀ i ∈ successIds ids (runSubmitShutdown cfg ids).2,
      ∃ o ∈ (runSubmitShutdown cfg ids).1.delivered_orders, o.id = i) ∧
    (runSubmitShutdown cfg ids).1.accepted_count
      = (successIds ids (runSubmitShutdown cfg ids).2).length ∧
    (runSubmitShutdown cfg ids).1.prepared_count
      = (successIds ids (runSubmitShutdown cfg ids).2).length ∧
    (runSubmitShutdown cfg ids).1.packed_count
      = (successIds ids (runSubmitShutdown cfg ids).2).length ∧
    (runSubmitShutdown cfg ids).1.delivered_count
      = (successIds ids (runSubmitShutdown cfg ids).2).length ∧
    (runSubmitShutdown cfg ids).1.q_in.push_count
      = (successIds ids (runSubmitShutdown cfg ids).2).length ∧
    (runSubmitShutdown cfg ids).1.q_in.pop_count
      = (successIds ids (runSubmitShutdown cfg ids).2).length ∧
    (runSubmitShutdown cfg ids).1.q_prepare.push_count
      = (successIds ids (runSubmitShutdown cfg ids).2).length ∧
    (runSubmitShutdown cfg ids).1.q_prepare.pop_count
      = (successIds ids (runSubmitShutdown cfg ids).2).length ∧
    (runSubmitShutdown cfg ids).1.q_pack.push_count
      = (successIds ids (runSubmitShutdown cfg ids).2).length ∧
    (runSubmitShutdown cfg ids).1.q_pack.pop_count
      = (successIds ids (runSubmitShutdown cfg ids).2).length := by
  have hr1 : (runSubmitShutdown cfg ids).1
      = (((Pipeline.init cfg).applyOp Op.start).submitAll ids).1.shutdown := rfl
  have hr2 : (runSubmitShutdown cfg ids).2
      = (((Pipeline.init cfg).applyOp Op.start).submitAll ids).2 := rfl
  rw [hr1, hr2]
  obtain ⟨s1, s2, s3, s4, s5, s6, s7, s8, s9, s10, s11, s12, s13, s14, s15,
    s16⟩ := submitAll_spec ids ((Pipeline.init cfg).applyOp Op.start) rfl
  have hinv1 : PipelineInv
      (((Pipeline.init cfg).applyOp Op.start).submitAll ids).1 :=
    inv_submitAll ids _ (inv_applyOp _ Op.start (inv_init cfg))
  have hpo : (((Pipeline.init cfg).applyOp Op.start).submitAll
      ids).1.q_prepare.isClosed = false := by
    rw [s4]
    rfl
  have hko : (((Pipeline.init cfg).applyOp Op.start).submitAll
      ids).1.q_pack.isClosed = false := by
    rw [s5]
    rfl
  have hpcap : 1 ≤ (((Pipeline.init cfg).applyOp Op.start).submitAll
      ids).1.q_prepare.capacity := by
    rw [s4]
    exact hp
  have hkcap : 1 ≤ (((Pipeline.init cfg).applyOp Op.start).submitAll
      ids).1.q_pack.capacity := by
    rw [s5]
    exact hk
  obtain ⟨d1, d2, d3, d4, d5, d6⟩ :=
    shutdown_drains _ s1 hinv1 hpo hko hpcap hkcap
  obtain ⟨hin, hprep, hpack, hacc2, hq1, hq2, hq3, hq4, hq5, hq6, _, _, _, _⟩ :=
    inv_shutdown _ hinv1
  have hp0acc : ((Pipeline.init cfg).applyOp Op.start).accepted_count = 0 := rfl
  have hp0push : ((Pipeline.init cfg).applyOp
      Op.start).q_in.push_count = 0 := rfl
  have haccK : (((Pipeline.init cfg).applyOp Op.start).submitAll
      ids).1.shutdown.accepted_count
      = (successIds ids (((Pipeline.init cfg).applyOp Op.start).submitAll
          ids).2).length := by
    rw [d4, s15, hp0acc, Nat.zero_add]
  have hpushK : (((Pipeline.init cfg).applyOp Op.start).submitAll
      ids).1.shutdown.q_in.push_count
      = (successIds ids (((Pipeline.init cfg).applyOp Op.start).submitAll
          ids).2).length := by
    rw [d5, s14, hp0push, Nat.zero_add]
  have e1 : (((Pipeline.init cfg).applyOp Op.start).submitAll
      ids).1.shutdown.q_in.buffer.length = 0 := by
    rw [d1]
    rfl
  have e2 : (((Pipeline.init cfg).applyOp Op.start).submitAll
      ids).1.shutdown.q_prepare.buffer.length = 0 := by
    rw [d2]
    rfl
  have e3 : (((Pipeline.init cfg).applyOp Op.start).submitAll
      ids).1.shutdown.q_pack.buffer.length = 0 := by
    rw [d3]
    rfl
  refine ⟨?_, haccK, ?_, ?_, ?_, hpushK, ?_, ?_, ?_, ?_, ?_⟩
  · intro i him
    have z1 : ((Pipeline.init cfg).applyOp Op.start).q_in.buffer = [] := rfl
    have hflow : (((Pipeline.init cfg).applyOp Op.start).submitAll
        ids).1.flowIds
        = successIds ids (((Pipeline.init cfg).applyOp Op.start).submitAll
            ids).2 := by
      rw [Pipeline.flowIds, s4, s5, s6, s16, z1]
      rfl
    have hmem : i ∈ (((Pipeline.init cfg).applyOp Op.start).submitAll
        ids).1.shutdown.delivered.map Order.id := by
      rw [d6, hflow]
      exact him
    obtain ⟨o, ho, hoid⟩ := List.mem_map.mp hmem
    exact ⟨o, ho, hoid⟩
  · omega
  · omega
  · omega
  · omega
  · omega
  · omega
  · omega
  · omega

/-- Concrete instance of the graceful-shutdown law: with the default
configuration and the batch 10, 11, 12, the delivered count equals the
number of successful submits. -/
theorem graceful_shutdown_drains_all_witness :
    (runSubmitShutdown {} [10, 11, 12]).1.delivered_count
      = (successIds [10, 11, 12] (runSubmitShutdown {} [10, 11, 12]).2).length :=
  (graceful_shutdown_drains_all {} (by decide) (by decide)
    [10, 11, 12]).2.2.2.2.1
